import Mathlib

/-!
Verification development for the enemy steering AI and combat coordination
engine of the dungeon-combat game (src/enemy.js together with the game loop,
coordinator and collision query of the main module).

Modelling conventions.

Numbers: the JavaScript source computes with IEEE doubles and the
transcendental functions Math.sqrt, Math.sin, Math.cos, Math.atan2.  The
shallow embedding uses the real numbers, with Real.sqrt, Real.sin, Real.cos
and an atan2 defined through Complex.arg (which has the same range as
Math.atan2).  Tick counters, hit points and damage are integer valued in the
source (they are only ever decremented, incremented or set to integer
literals), so they are embedded as integers.  Agent identity (the source
relies on JavaScript reference equality for Set membership and for the
self-test other === this) is embedded as a natural-number id field, following
the design note of the specification.

Effects: the source appends particles and floating text to global sinks,
triggers screen shake and pokes the DOM.  Those sinks are draw-only and are
not modelled; damage application, attack dispatch and projectile spawning are
modelled as an emitted event list so that temporal claims about them can be
stated.  Player state (position, velocity, hp) and the dungeon interface
(isSolid, TILE, difficulty, the token set, the sibling list, the inDungeon
flag) form a World record, mirroring the _g game reference.

The wall-slide redistribution loop of the source writes into a fresh array
while reading only the untouched interest and danger arrays, so the order of
its writes is immaterial; it is embedded as the equivalent sum over all
source directions and offsets.
-/

/-- Attack styles of the behaviour profile, from the type.attackStyle enum. -/
inductive Style where
  | contact
  | sword
  | dash
  | projectile
deriving DecidableEq, Repr

/-- Immutable behaviour profile fields that influence the combat logic
(visual-only fields of the source type objects are omitted).  Optional fields
mirror properties that may be absent on the duck-typed source objects. -/
structure EType where
  attackStyle : Style
  swordLength : Option ℝ := none
  size : Option ℝ := none

/-- One hostile agent: the fields of the Enemy class constructor. -/
structure Enemy where
  id : ℕ
  x : ℝ
  y : ℝ
  hp : ℤ
  maxHp : ℤ
  vx : ℝ
  vy : ℝ
  damage : ℤ
  attackCooldown : ℤ
  hitFlash : ℤ
  dead : Bool
  deathTimer : ℤ
  ty : Option EType
  spawnX : ℝ
  spawnY : ℝ
  noiseOffset : ℝ
  strafeDir : ℝ
  distToPlayer : ℝ
  attackStyle : Style
  preferredDist : ℝ
  swordAngle : ℝ
  swordSwinging : Bool
  swordSwingTimer : ℤ
  swordSwingDir : ℝ
  dashing : Bool
  dashTimer : ℤ
  dashDirX : ℝ
  dashDirY : ℝ
  dashHitPlayer : Bool
  stuckCounter : ℤ
  lastX : ℝ
  lastY : ℝ

/-- Effects emitted during an update that the claims talk about. -/
inductive Event where
  | damagePlayer (amount : ℤ)
  | dispatch (s : Style)
  | spawnProjectile (x y vx vy : ℝ) (damage : ℤ)
  | enemyDefeated

/-- The slice of the global game reference _g and its state object that the
enemy engine reads and writes: player position, player velocity and hp, the
dungeon difficulty, tile size and collision query, the attack token set
(as agent ids), the live sibling list, the damage flash counter and the
inDungeon flag (cleared by fleeDungeon). -/
structure World where
  playerX : ℝ
  playerY : ℝ
  velX : ℝ
  velY : ℝ
  hp : ℤ
  difficulty : ℝ
  tile : ℝ
  isSolid : ℤ → ℤ → Bool
  tokens : List ℕ
  enemies : List Enemy
  damageFlash : ℤ
  inDungeon : Bool

/-- Per-tick inputs the update reads from outside the agent: the wall-clock
time performance.now() / 1000 and the Math.random draw used for the sword
swing direction. -/
structure Input where
  t : ℝ
  swingRand : Bool

/-- Result of one agent update: the new agent, the new world, the emitted
events, and the removal flag returned by Enemy.update. -/
structure UpdateResult where
  enemy : Enemy
  world : World
  events : List Event
  remove : Bool

/-- Math.atan2, embedded through the argument of a complex number; both have
range (-pi, pi] and the same sign conventions. -/
noncomputable def atan2 (y x : ℝ) : ℝ := Complex.arg ⟨x, y⟩

/-- Layered-sine noise from smoothNoise in enemy.js. -/
noncomputable def smoothNoise (t seed : ℝ) : ℝ :=
  Real.sin (t * 0.7 + seed * 1.0) * 0.4
    + Real.sin (t * 1.3 + seed * 2.3) * 0.3
    + Real.sin (t * 0.3 + seed * 0.7) * 0.2
    + Real.sin (t * 2.1 + seed * 3.1) * 0.1

/-- The 16 evenly spaced unit direction vectors DIR_VECTORS. -/
noncomputable def dirVec (i : Fin 16) : ℝ × ℝ :=
  (Real.cos ((i : ℝ) / 16 * (Real.pi * 2)), Real.sin ((i : ℝ) / 16 * (Real.pi * 2)))

/-- Effective sword length: this.type.swordLength with the JavaScript
short-circuit default of 18 (absent and zero are both falsy). -/
noncomputable def swordLengthOf (e : Enemy) : ℝ :=
  match e.ty with
  | none => 18
  | some t =>
    match t.swordLength with
    | none => 18
    | some v => if v = 0 then 18 else v

/-- Agent radius: the size getter with default 10. -/
def bodySize (e : Enemy) : ℝ :=
  match e.ty with
  | none => 10
  | some t =>
    match t.size with
    | none => 10
    | some v => v

/-- Shared damage path _applyDamageToPlayer: subtract the agent damage from
player hp, set the damage flash, and leave the dungeon (fleeDungeon) when hp
drops to zero or below. -/
def applyDamageToPlayer (e : Enemy) (w : World) : World × List Event :=
  let hp1 := w.hp - e.damage
  let w1 : World := { w with hp := hp1, damageFlash := 12 }
  let w2 : World := if hp1 ≤ 0 then { w1 with inDungeon := false } else w1
  (w2, [Event.damagePlayer e.damage])

/-- Contact attack _doContactDamage: immediate damage, 60-tick cooldown, and
a recoil added to the PLAYER velocity state.velX, state.velY (the agent
velocity fields are untouched by this function in the source). -/
noncomputable def doContactDamage (w : World) (e : Enemy) (toPx toPy : ℝ) :
    Enemy × World × List Event :=
  let r1 := applyDamageToPlayer e w
  let e1 : Enemy := { e with attackCooldown := 60 }
  let w2 : World :=
    if 0 < Real.sqrt (toPx * toPx + toPy * toPy) then
      { r1.1 with velX := r1.1.velX - toPx * 2.5, velY := r1.1.velY - toPy * 2.5 }
    else r1.1
  (e1, w2, r1.2)

/-- Sword attack start _startSwordSwing. -/
noncomputable def startSwordSwing (e : Enemy) (toPx toPy : ℝ) (r : Bool) : Enemy :=
  { e with
    swordSwinging := true
    swordSwingTimer := 20
    swordAngle := atan2 toPy toPx - Real.pi / 3
    swordSwingDir := if r then 1 else -1
    attackCooldown := 70 }

/-- Dash attack start _startDash. -/
def startDash (e : Enemy) (toPx toPy : ℝ) : Enemy :=
  { e with
    dashing := true
    dashTimer := 15
    dashDirX := toPx
    dashDirY := toPy
    dashHitPlayer := false
    attackCooldown := 90 }

/-- Projectile attack _fireProjectile: spawn a projectile entity (modelled as
an event, the projectile subsystem owns it afterwards) and set the 90-tick
cooldown.  Muzzle flash particles are draw-only and omitted. -/
def fireProjectile (w : World) (e : Enemy) (toPx toPy : ℝ) :
    Enemy × World × List Event :=
  let projSpeed := 1.8 + (w.difficulty - 1) * 0.2
  ({ e with attackCooldown := 90 }, w,
    [Event.spawnProjectile (e.x + toPx * bodySize e) (e.y + toPy * bodySize e)
      (toPx * projSpeed) (toPy * projSpeed) e.damage])

/-- Hit reaction Enemy.takeHit: hp decrement, hit stun, knockback impulse away
from the player with the JavaScript zero-distance guard (sqrt(...) or 1), and
the death transition when hp reaches zero. -/
noncomputable def takeHit (w : World) (e : Enemy) : Enemy × List Event :=
  let e1 : Enemy := { e with hp := e.hp - 1, hitFlash := 8 }
  let dx := e.x - w.playerX
  let dy := e.y - w.playerY
  let d0 := Real.sqrt (dx * dx + dy * dy)
  let d := if d0 = 0 then 1 else d0
  let e2 : Enemy := { e1 with vx := e1.vx + dx / d * 5, vy := e1.vy + dy / d * 5 }
  if e2.hp ≤ 0 then
    ({ e2 with dead := true, deathTimer := 20 }, [Event.enemyDefeated])
  else (e2, [])

/-- Danger map for one direction: probe two points ahead (10 and 20 units)
along the direction; a solid near probe marks danger 1.0, a solid far probe
0.5, folded with max exactly as the source loop does. -/
noncomputable def danger (w : World) (e : Enemy) (i : Fin 16) : ℝ :=
  let dv := dirVec i
  let d0 : ℝ := 0
  let d1 : ℝ :=
    if w.isSolid ⌊(e.x + dv.1 * 10 * 1) / w.tile⌋ ⌊(e.y + dv.2 * 10 * 1) / w.tile⌋
    then max d0 1.0 else d0
  let d2 : ℝ :=
    if w.isSolid ⌊(e.x + dv.1 * 10 * 2) / w.tile⌋ ⌊(e.y + dv.2 * 10 * 2) / w.tile⌋
    then max d1 0.5 else d1
  d2

/-- Interest accumulated for one direction, translating the body of the
per-direction loop of Enemy.update: chase and strafe for token holders,
orbit shaping without a token, surround spread, wander and home bias when out
of range, separation from siblings, and corner escape pressure.  The
arguments dist, toPx, toPy are the values computed once at the top of the
steering section. -/
noncomputable def interest (w : World) (inp : Input) (e : Enemy)
    (dist toPx toPy : ℝ) (i : Fin 16) : ℝ :=
  let dv := dirVec i
  let perpX := -toPy * e.strafeDir
  let perpY := toPx * e.strafeDir
  let t := inp.t
  let engagePulse := 0.5 + 0.5 * Real.sin (t * 0.8 + e.noiseOffset * 0.5)
  let idealDist : ℝ :=
    if e.id ∈ w.tokens then (if e.attackStyle = Style.projectile then 100 else 18)
    else e.preferredDist
  let myAngle := atan2 (e.y - w.playerY) (e.x - w.playerX)
  let base : ℝ :=
    if dist < 320 then
      let chaseDot := dv.1 * toPx + dv.2 * toPy
      let strafeDot := dv.1 * perpX + dv.2 * perpY
      let tokenPart : ℝ :=
        if e.id ∈ w.tokens then
          let chaseW := max 0 ((dist - 15) / 200)
          let strafeW := 1 - min 1 (dist / 80)
          (max 0 chaseDot) * chaseW * (0.7 + engagePulse * 0.3)
            + (max 0 strafeDot) * strafeW * 0.5
        else
          (if idealDist < dist then
            (max 0 chaseDot) * (max 0 ((dist - idealDist) / (320 - idealDist))) * 0.6
          else 0)
            + (if dist < idealDist then
                (max 0 (-(dv.1 * toPx + dv.2 * toPy))) * (1 - dist / idealDist) * 0.5
              else 0)
            + (let strafeW := 1 - min 1 (|dist - idealDist| / 120)
               let shaped := max 0 strafeDot
               let fwdBias := max 0 (chaseDot * 0.2 + 0.8)
               shaped * shaped * strafeW * 0.9 * fwdBias)
      let spread : ℝ :=
        if 20 < dist then
          (w.enemies.map (fun o =>
            if o.id = e.id ∨ o.dead then 0
            else if 320 < o.distToPlayer then 0
            else
              let otherAngle := atan2 (o.y - w.playerY) (o.x - w.playerX)
              let a0 := myAngle - otherAngle
              let a1 := if Real.pi < a0 then a0 - Real.pi * 2 else a0
              let a2 := if a1 < -Real.pi then a1 + Real.pi * 2 else a1
              if |a2| < 0.9 then
                let sign : ℝ := if 0 ≤ a2 then 1 else -1
                let tangX := -(e.y - w.playerY) / dist * sign
                let tangY := (e.x - w.playerX) / dist * sign
                let spreadDot := dv.1 * tangX + dv.2 * tangY
                (max 0 spreadDot) * (1 - |a2| / 0.9) * 0.45
              else 0)).sum
        else 0
      tokenPart + spread
    else
      let wx := smoothNoise (t * 0.5) e.noiseOffset
      let wy := smoothNoise (t * 0.5) (e.noiseOffset + 500)
      let wl0 := Real.sqrt (wx * wx + wy * wy)
      let wLen := if wl0 = 0 then 1 else wl0
      let wander := (max 0 (dv.1 * (wx / wLen) + dv.2 * (wy / wLen))) * 0.4
      let hx := e.spawnX - e.x
      let hy := e.spawnY - e.y
      let homeDist := Real.sqrt (hx * hx + hy * hy)
      let home : ℝ :=
        if 48 < homeDist then
          (max 0 (dv.1 * (hx / homeDist) + dv.2 * (hy / homeDist)))
            * (min 1 ((homeDist - 48) / 96)) * 0.6
        else 0
      wander + home
  let separation : ℝ :=
    (w.enemies.map (fun o =>
      if o.id = e.id ∨ o.dead then 0
      else
        let sex := e.x - o.x
        let sey := e.y - o.y
        let seDist := Real.sqrt (sex * sex + sey * sey)
        if seDist < 40 ∧ 0 < seDist then
          let awayNx := sex / seDist
          let awayNy := sey / seDist
          let awayDot := dv.1 * awayNx + dv.2 * awayNy
          let perpADot := |dv.1 * (-awayNy) + dv.2 * awayNx|
          (max 0 (awayDot * 0.3 + perpADot * 0.7)) * (1 - seDist / 40) * 0.55
        else 0)).sum
  let escape : ℝ :=
    if 30 < e.stuckCounter ∧ danger w e i < 0.3 then
      0.3 * min 1 (((e.stuckCounter : ℝ) - 30) / 60)
    else 0
  base + separation + escape

/-- Wall-slide redistribution: every direction whose danger is at least 0.5
and whose blocked interest is at least 0.01 donates blocked interest times
0.5 / 0.3 / 0.15 to its 1st/2nd/3rd neighbours on both sides, provided the
receiving direction is itself safe.  The source loop writes into a fresh
array while reading only the untouched interest and danger arrays, so it is
expressed as a sum over all donors. -/
noncomputable def redistribute (intst dang : Fin 16 → ℝ) (j : Fin 16) : ℝ :=
  intst j +
    ∑ i : Fin 16, ∑ o ∈ Finset.range 3,
      if 0.5 ≤ dang i ∧ 0.01 ≤ intst i * dang i then
        (let weight : ℝ := if o = 0 then 0.5 else if o = 1 then 0.3 else 0.15
        (if i - ((o + 1 : ℕ) : Fin 16) = j ∧ dang j < 0.5
          then intst i * dang i * weight else 0)
          + (if i + ((o + 1 : ℕ) : Fin 16) = j ∧ dang j < 0.5
              then intst i * dang i * weight else 0))
      else 0

/-- Final per-direction scores: redistributed interest damped by danger. -/
noncomputable def finalScores (w : World) (inp : Input) (e : Enemy)
    (dist toPx toPy : ℝ) (i : Fin 16) : ℝ :=
  redistribute (interest w inp e dist toPx toPy) (danger w e) i * (1 - danger w e i)

/-- One iteration of the best-direction selection loop: take the direction
when its score strictly beats the current best. -/
noncomputable def pickStep (scores : Fin 16 → ℝ) (b : Option (Fin 16) × ℝ)
    (i : Fin 16) : Option (Fin 16) × ℝ :=
  if b.2 < scores i then (some i, scores i) else b

/-- Best-direction selection loop: start from bestI = -1, bestScore = -1 and
fold the comparison over the 16 directions in order. -/
noncomputable def pickBest (scores : Fin 16 → ℝ) : Option (Fin 16) × ℝ :=
  (List.finRange 16).foldl (pickStep scores) (none, -1)

/-- Steering movement and stuck-counter update: move along the best direction
at difficulty-scaled speed when its score clears the 0.01 floor and the
destination tile is not solid, then update the stuck counter and the
last-position memory. -/
noncomputable def steerMove (w : World) (inp : Input) (e : Enemy)
    (dist toPx toPy : ℝ) : Enemy :=
  let pick := pickBest (finalScores w inp e dist toPx toPy)
  let e1 : Enemy :=
    match pick.1 with
    | some i =>
      if 0.01 < pick.2 then
        let baseSpd := 0.45 + (w.difficulty - 1) * 0.075
        let spdMod : ℝ :=
          if dist < 320 then (if e.id ∈ w.tokens then 1.0 else 0.75) else 0.5
        let mx := e.x + (dirVec i).1 * baseSpd * spdMod
        let my := e.y + (dirVec i).2 * baseSpd * spdMod
        if w.isSolid ⌊mx / w.tile⌋ ⌊my / w.tile⌋ = false then
          { e with x := mx, y := my }
        else e
      else e
    | none => e
  let movedDist := |e1.x - e.lastX| + |e1.y - e.lastY|
  let stuck : ℤ :=
    if movedDist < 0.15 ∧ dist < 320 then e.stuckCounter + 1
    else max 0 (e.stuckCounter - 2)
  { e1 with stuckCounter := stuck, lastX := e1.x, lastY := e1.y }

/-- Attack dispatch: only with a token and with the cooldown at zero, the
style-specific range gates select one of the four attack starters.  The
range values dist, toPx, toPy are the ones computed before the steering
move, exactly as in the source. -/
noncomputable def dispatchStep (w : World) (inp : Input) (e : Enemy)
    (dist toPx toPy : ℝ) : Enemy × World × List Event :=
  if e.id ∈ w.tokens ∧ e.attackCooldown ≤ 0 then
    if e.attackStyle = Style.sword ∧ dist < 28 ∧ e.swordSwinging = false then
      (startSwordSwing e toPx toPy inp.swingRand, w, [Event.dispatch Style.sword])
    else if e.attackStyle = Style.dash ∧ dist < 80 ∧ 20 < dist ∧ e.dashing = false then
      (startDash e toPx toPy, w, [Event.dispatch Style.dash])
    else if e.attackStyle = Style.projectile ∧ dist < 150 ∧ 30 < dist then
      let r := fireProjectile w e toPx toPy
      (r.1, r.2.1, Event.dispatch Style.projectile :: r.2.2)
    else if e.attackStyle = Style.contact ∧ dist < 18 then
      let r := doContactDamage w e toPx toPy
      (r.1, r.2.1, Event.dispatch Style.contact :: r.2.2)
    else (e, w, [])
  else (e, w, [])

/-- Sword swing progression on the normal (non-dash) path: advance the timer
and the blade angle, run the single mid-swing damage check when the timer
reaches 10, and end the swing when the timer runs out. -/
noncomputable def swingStep (w : World) (e : Enemy) : Enemy × World × List Event :=
  if e.swordSwinging then
    let timer1 := e.swordSwingTimer - 1
    let angle1 := e.swordAngle + e.swordSwingDir * (Real.pi / 15)
    let e1 : Enemy := { e with swordSwingTimer := timer1, swordAngle := angle1 }
    let hit :=
      if timer1 = 10 then
        let sLen := swordLengthOf e
        let tipX := e1.x + Real.cos angle1 * sLen
        let tipY := e1.y + Real.sin angle1 * sLen
        let dxP := w.playerX - tipX
        let dyP := w.playerY - tipY
        if Real.sqrt (dxP * dxP + dyP * dyP) < 16 then applyDamageToPlayer e1 w
        else (w, [])
      else (w, [])
    let e2 : Enemy := if timer1 ≤ 0 then { e1 with swordSwinging := false } else e1
    (e2, hit.1, hit.2)
  else (e, w, [])

/-- Dash timer countdown at the top of the dash branch. -/
def dashTick (e : Enemy) : Enemy := { e with dashTimer := e.dashTimer - 1 }

/-- Dash movement: advance along the stored dash direction at the
difficulty-scaled dash speed, unless the destination tile is solid, in which
case the dash is cancelled early (impact particles are draw-only and
omitted). -/
noncomputable def dashMove (w : World) (e : Enemy) : Enemy :=
  let dashSpeed := 2.5 + (w.difficulty - 1) * 0.3
  let nx := e.x + e.dashDirX * dashSpeed
  let ny := e.y + e.dashDirY * dashSpeed
  if w.isSolid ⌊nx / w.tile⌋ ⌊ny / w.tile⌋ then
    { e with dashing := false, dashTimer := 0 }
  else { e with x := nx, y := ny }

/-- Once-per-dash contact check: while still dashing and not yet having hit,
damage the player when within 16 units and push the player velocity away
(guarded against the zero distance). -/
noncomputable def dashHit (w : World) (e : Enemy) : Enemy × World × List Event :=
  if e.dashing = true ∧ e.dashHitPlayer = false then
    let dxP := w.playerX - e.x
    let dyP := w.playerY - e.y
    let distP := Real.sqrt (dxP * dxP + dyP * dyP)
    if distP < 16 then
      let r := applyDamageToPlayer e w
      let w2 : World :=
        if 0 < distP then
          { r.1 with velX := r.1.velX + dxP / distP * 3.0,
                     velY := r.1.velY + dyP / distP * 3.0 }
        else r.1
      ({ e with dashHitPlayer := true }, w2, r.2)
    else (e, w, [])
  else (e, w, [])

/-- Dash end: when the timer has run out the dash flags reset. -/
def dashEnd (e : Enemy) : Enemy :=
  if e.dashTimer ≤ 0 then { e with dashing := false, dashHitPlayer := false }
  else e

/-- The damage-free sword-swing tick that also runs inside the dash
branch. -/
noncomputable def dashSwing (e : Enemy) : Enemy :=
  if e.swordSwinging then
    let t1 := e.swordSwingTimer - 1
    { e with
      swordSwingTimer := t1
      swordAngle := e.swordAngle + e.swordSwingDir * (Real.pi / 15)
      swordSwinging := if t1 ≤ 0 then false else e.swordSwinging }
  else e

/-- The dash branch of Enemy.update: authoritative dash movement, early
cancel on a solid tile, the once-per-dash contact check with player
knockback, dash end, and the damage-free sword-swing tick that also runs
inside this branch.  Trail and impact particles are draw-only and omitted. -/
noncomputable def dashBranch (w : World) (e : Enemy) : UpdateResult :=
  let e2 := dashMove w (dashTick e)
  let r3 := dashHit w e2
  ⟨dashSwing (dashEnd r3.1), r3.2.1, r3.2.2, false⟩

/-- Distance from the agent to the player, as computed at the top of the
steering section. -/
noncomputable def playerDist (w : World) (e : Enemy) : ℝ :=
  Real.sqrt ((w.playerX - e.x) * (w.playerX - e.x)
    + (w.playerY - e.y) * (w.playerY - e.y))

/-- Normalised x component of the agent-to-player direction, zero when the
distance is zero. -/
noncomputable def toPlayerX (w : World) (e : Enemy) : ℝ :=
  if 0 < playerDist w e then (w.playerX - e.x) / playerDist w e else 0

/-- Normalised y component of the agent-to-player direction, zero when the
distance is zero. -/
noncomputable def toPlayerY (w : World) (e : Enemy) : ℝ :=
  if 0 < playerDist w e then (w.playerY - e.y) / playerDist w e else 0

/-- Steering, dispatch and swing for a live, unstunned, non-dashing agent:
the tail of Enemy.update after the knockback section.  The distance and
direction to the player are computed once, before the steering move, and the
dispatch gates reuse those pre-move values exactly as the source does. -/
noncomputable def steerAttack (w : World) (inp : Input) (e : Enemy) : UpdateResult :=
  let dist := playerDist w e
  let toPx := toPlayerX w e
  let toPy := toPlayerY w e
  let e4 := steerMove w inp e dist toPx toPy
  let r5 := dispatchStep w inp e4 dist toPx toPy
  let r6 := swingStep r5.2.1 r5.1
  ⟨r6.1, r6.2.1, r5.2.2 ++ r6.2.2, false⟩

/-- Start-of-tick countdowns: attackCooldown and hitFlash each decrement
while positive. -/
def tickCounters (e : Enemy) : Enemy :=
  { e with
    attackCooldown := if 0 < e.attackCooldown then e.attackCooldown - 1
                      else e.attackCooldown
    hitFlash := if 0 < e.hitFlash then e.hitFlash - 1 else e.hitFlash }

/-- Knockback movement: while the knockback speed is above 0.1 the velocity
is applied to the position, but only when the destination tile is not
solid. -/
noncomputable def knockbackStep (w : World) (e : Enemy) : Enemy :=
  let nx := e.x + e.vx
  let ny := e.y + e.vy
  if 0.1 < Real.sqrt (e.vx * e.vx + e.vy * e.vy)
      ∧ w.isSolid ⌊nx / w.tile⌋ ⌊ny / w.tile⌋ = false then
    { e with x := nx, y := ny }
  else e

/-- Geometric knockback decay by the factor 0.78. -/
def decayVel (e : Enemy) : Enemy :=
  { e with vx := e.vx * 0.78, vy := e.vy * 0.78 }

/-- One tick of Enemy.update: the death countdown with removal flag, the
cooldown and hit-flash decrements, guarded knockback movement with geometric
decay, the hit-stun / knockback early return, and then either the dash
branch or steering with attack dispatch. -/
noncomputable def updateEnemy (w : World) (inp : Input) (e : Enemy) : UpdateResult :=
  if e.dead then
    ⟨{ e with deathTimer := e.deathTimer - 1 }, w, [],
      decide (e.deathTimer - 1 ≤ 0)⟩
  else if 0 < (decayVel (knockbackStep w (tickCounters e))).hitFlash
      ∨ 1.5 < Real.sqrt ((tickCounters e).vx * (tickCounters e).vx
          + (tickCounters e).vy * (tickCounters e).vy) then
    ⟨decayVel (knockbackStep w (tickCounters e)), w, [], false⟩
  else if (decayVel (knockbackStep w (tickCounters e))).dashing then
    dashBranch w (decayVel (knockbackStep w (tickCounters e)))
  else steerAttack w inp (decayVel (knockbackStep w (tickCounters e)))

/-- Comparator used by the coordinator sort: ascending cached distance to the
player (the source sorts with a - b on the distance cache). -/
def byDist (a b : Enemy) : Prop := a.distToPlayer ≤ b.distToPlayer

noncomputable instance : DecidableRel byDist := fun a b => Real.decidableLE a.distToPlayer b.distToPlayer

instance : IsTotal Enemy byDist := ⟨fun a b => le_total a.distToPlayer b.distToPlayer⟩

instance : IsTrans Enemy byDist := ⟨fun _ _ _ h1 h2 => le_trans h1 h2⟩

/-- Attack coordinator updateEnemyCoordination: cache each live agent
distance to the player, collect the live agents closer than 320 units, sort
them ascending by that distance, and grant tokens to the first
min(2, ceil(difficulty)) of them.  The token set is rebuilt from scratch.
The source sort is a stable comparison sort; insertion sort realises the
same contract. -/
noncomputable def updateEnemyCoordination (w : World) : World :=
  let maxTokens : ℤ := min 2 ⌈w.difficulty⌉
  let withDist : List Enemy :=
    w.enemies.map (fun e =>
      if e.dead then e
      else { e with
              distToPlayer :=
                Real.sqrt ((e.x - w.playerX) * (e.x - w.playerX)
                  + (e.y - w.playerY) * (e.y - w.playerY)) })
  let alive : List Enemy :=
    withDist.filter (fun e => !e.dead && decide (e.distToPlayer < 320))
  let sorted := alive.insertionSort byDist
  { w with
    enemies := withDist
    tokens := (sorted.take maxTokens.toNat).map (fun e => e.id) }

/-- Reverse-iteration update pass of updateEnemies: the suffix of the agent
array (higher indices) is processed first, each update sees the current
array (unprocessed original prefix, the agent itself, processed suffix) as
its sibling list, agents whose update returns true are spliced out, and the
pass stops early as soon as the inDungeon flag is cleared (leaving lower
indices untouched). -/
noncomputable def updateEnemiesPass (inp : Input) (w : World) (pre : List Enemy) :
    List Enemy → World × List Enemy
  | [] => (w, [])
  | e :: rest =>
    let pr := updateEnemiesPass inp w (pre ++ [e]) rest
    if pr.1.inDungeon = false then (pr.1, e :: pr.2)
    else
      let r := updateEnemy { pr.1 with enemies := pre ++ e :: pr.2 } inp e
      (r.world, if r.remove then pr.2 else r.enemy :: pr.2)

/-- One full coordination and update tick over the live collection:
updateEnemies of the main module. -/
noncomputable def updateEnemiesTick (inp : Input) (w : World) : World × List Enemy :=
  let w1 := updateEnemyCoordination w
  updateEnemiesPass inp w1 [] w1.enemies

/-- The dungeon map data read by the collision query: dimensions, the tile
grid and the key flag (tile value 1 is a wall, value 8 a door that is solid
until the key is held). -/
structure DungeonMap where
  mapRows : ℤ
  mapCols : ℤ
  tile : ℤ → ℤ → ℤ
  hasKey : Bool

/-- Collision query isSolid of the main module: out-of-bounds queries are
solid, in-bounds queries test the tile value. -/
def dungeonIsSolid (m : DungeonMap) (col row : ℤ) : Bool :=
  if row < 0 ∨ m.mapRows ≤ row ∨ col < 0 ∨ m.mapCols ≤ col then true
  else
    let t := m.tile row col
    t == 1 || (t == 8 && !m.hasKey)

/-- Iterated single-agent updates, one world and input per tick, keeping only
the agent (used for the temporal claims about one agent under an arbitrary
evolution of its surroundings). -/
noncomputable def runEnemy (e : Enemy) : List (World × Input) → Enemy
  | [] => e
  | (w, inp) :: rest => runEnemy (updateEnemy w inp e).enemy rest

/-- No attack dispatch happens anywhere along a run of single-agent ticks. -/
noncomputable def dispatchFreeRun (e : Enemy) : List (World × Input) → Prop
  | [] => True
  | (w, inp) :: rest =>
    (∀ s : Style, Event.dispatch s ∉ (updateEnemy w inp e).events)
      ∧ dispatchFreeRun (updateEnemy w inp e).enemy rest

/-- Cooldown window started by a dispatch of each attack style. -/
def cooldownTicks : Style → ℤ
  | Style.contact => 60
  | Style.sword => 70
  | Style.dash => 90
  | Style.projectile => 90

/-- Neutral agent used as a base for the concrete scenarios below. -/
noncomputable def baseEnemy : Enemy :=
  { id := 0, x := 0, y := 0, hp := 5, maxHp := 5, vx := 0, vy := 0, damage := 1
    attackCooldown := 0, hitFlash := 0, dead := false, deathTimer := 0, ty := none
    spawnX := 0, spawnY := 0, noiseOffset := 0, strafeDir := 1, distToPlayer := 0
    attackStyle := Style.contact, preferredDist := 60, swordAngle := 0
    swordSwinging := false, swordSwingTimer := 0, swordSwingDir := 1
    dashing := false, dashTimer := 0, dashDirX := 0, dashDirY := 0
    dashHitPlayer := false, stuckCounter := 0, lastX := 0, lastY := 0 }

/-- Neutral world used as a base for the concrete scenarios below: an empty
dungeon with no walls, difficulty 1 and the player at the origin. -/
noncomputable def baseWorld : World :=
  { playerX := 0, playerY := 0, velX := 0, velY := 0, hp := 10, difficulty := 1
    tile := 32, isSolid := fun _ _ => false, tokens := [], enemies := []
    damageFlash := 0, inDungeon := true }

/-- Zero-time input with the deterministic random draw. -/
noncomputable def inp0 : Input := { t := 0, swingRand := false }

/-- Map for the out-of-bounds collision scenario. -/
def mapC8 : DungeonMap := { mapRows := 10, mapCols := 12, tile := fun _ _ => 0, hasKey := false }

/-- Agent struck at position (3, 4) with the player at the origin. -/
noncomputable def eC9 : Enemy := { baseEnemy with x := 3, y := 4, vx := 1, vy := 2 }

/-- Contact-style token holder at the origin, 10 units from the player. -/
noncomputable def eC3 : Enemy := { baseEnemy with damage := 2 }

/-- World for the contact-dispatch scenario: player 10 units east of the
agent, agent holds the token. -/
noncomputable def wC3 : World :=
  { baseWorld with playerX := 10, tokens := [0], enemies := [eC3] }

/-- World with a single live agent 50 units from the player, for the token
coordination scenario. -/
noncomputable def wC1 : World :=
  { baseWorld with enemies := [{ baseEnemy with x := 30, y := 40 }] }

/-- An expired dead agent: dead with the death timer at zero. -/
noncomputable def eC6 : Enemy := { baseEnemy with dead := true, deathTimer := 0 }

/-- World containing only the expired dead agent. -/
noncomputable def wC6 : World := { baseWorld with enemies := [eC6] }

/-- Agent entering its tick with one tick of hit stun left. -/
noncomputable def eC2 : Enemy := { baseEnemy with hitFlash := 1 }

/-- World for the hit-stun steering scenario: the player 100 units east, the
stunned agent holding the token, no walls. -/
noncomputable def wC2 : World :=
  { baseWorld with playerX := 100, tokens := [0], enemies := [eC2] }

/-- State of an uninterrupted sword swing k ticks after the start: the swing
flag is up, the swing timer and the attack cooldown have each counted down k
from their initial 20 and 70, and the agent is free of hit stun, residual
velocity and dash state, so no early return and no second dispatch can occur
before the swing ends. -/
def SwingInv (dmg : ℤ) (ty0 : Option EType) (k : ℕ) (e : Enemy) : Prop :=
  e.dead = false ∧ e.attackStyle = Style.sword ∧ e.swordSwinging = true ∧
  e.swordSwingTimer = 20 - (k : ℤ) ∧ e.attackCooldown = 70 - (k : ℤ) ∧
  e.hitFlash = 0 ∧ e.vx = 0 ∧ e.vy = 0 ∧ e.dashing = false ∧
  e.damage = dmg ∧ e.ty = ty0

/-- Sword agent one tick after dispatching its swing. -/
noncomputable def eC7 : Enemy :=
  { baseEnemy with
    attackStyle := Style.sword
    swordSwinging := true
    swordSwingTimer := 20
    attackCooldown := 70 }

/-! Theorems.  Helper lemmas come first, then one theorem per claim together
with its witness or counterexample. -/

/-- Projection of takeHit onto the fields the hit-reaction claims mention. -/
lemma takeHit_proj (w : World) (e : Enemy) :
    (takeHit w e).1.hp = e.hp - 1 ∧ (takeHit w e).1.hitFlash = 8 ∧
    (takeHit w e).1.vx = e.vx + (e.x - w.playerX) /
        (if Real.sqrt ((e.x - w.playerX) * (e.x - w.playerX) +
            (e.y - w.playerY) * (e.y - w.playerY)) = 0 then 1
          else Real.sqrt ((e.x - w.playerX) * (e.x - w.playerX) +
            (e.y - w.playerY) * (e.y - w.playerY))) * 5 ∧
    (takeHit w e).1.vy = e.vy + (e.y - w.playerY) /
        (if Real.sqrt ((e.x - w.playerX) * (e.x - w.playerX) +
            (e.y - w.playerY) * (e.y - w.playerY)) = 0 then 1
          else Real.sqrt ((e.x - w.playerX) * (e.x - w.playerX) +
            (e.y - w.playerY) * (e.y - w.playerY))) * 5 := by
  simp only [takeHit]
  split_ifs <;> simp_all

/-- C8: every tile query with a column or row index outside the map bounds
(negative, or at or past the number of map columns or rows) returns solid. -/
theorem isSolid_out_of_bounds (m : DungeonMap) (col row : ℤ)
    (h : col < 0 ∨ m.mapCols ≤ col ∨ row < 0 ∨ m.mapRows ≤ row) :
    dungeonIsSolid m col row = true := by
  unfold dungeonIsSolid
  rw [if_pos]
  tauto

/-- Witness for the out-of-bounds claim: the query at column -1 of a 10 by 12
map is solid. -/
theorem isSolid_out_of_bounds_witness :
    ((-1 : ℤ) < 0 ∨ mapC8.mapCols ≤ -1 ∨ (5 : ℤ) < 0 ∨ mapC8.mapRows ≤ 5) ∧
      dungeonIsSolid mapC8 (-1) 5 = true :=
  ⟨Or.inl (by decide), isSolid_out_of_bounds mapC8 (-1) 5 (Or.inl (by decide))⟩

/-- C9: takeHit decrements hp by exactly one (whatever the damage field
holds and with no attacker parameter), sets the hit stun to 8 ticks, and adds
a knockback impulse of magnitude 5 pointing from the player toward the agent;
when the agent sits exactly on the player the guarded divisor 1 makes the
impulse vanish instead of dividing by zero. -/
theorem takeHit_spec (w : World) (e : Enemy) :
    (takeHit w e).1.hp = e.hp - 1 ∧
    (takeHit w e).1.hitFlash = 8 ∧
    (¬(e.x = w.playerX ∧ e.y = w.playerY) →
      ((takeHit w e).1.vx - e.vx) ^ 2 + ((takeHit w e).1.vy - e.vy) ^ 2 = 25 ∧
        ∃ c : ℝ, 0 < c ∧ (takeHit w e).1.vx - e.vx = c * (e.x - w.playerX) ∧
          (takeHit w e).1.vy - e.vy = c * (e.y - w.playerY)) ∧
    ((e.x = w.playerX ∧ e.y = w.playerY) →
      (takeHit w e).1.vx = e.vx ∧ (takeHit w e).1.vy = e.vy) := by
  obtain ⟨hhp, hfl, hvx, hvy⟩ := takeHit_proj w e
  set dx := e.x - w.playerX with hdx
  set dy := e.y - w.playerY with hdy
  refine ⟨hhp, hfl, ?_, ?_⟩
  · intro hne
    have hpos : 0 < dx * dx + dy * dy := by
      rcases not_and_or.mp hne with h | h
      · have : dx ≠ 0 := fun hc => h (by rw [hdx] at hc; linarith [hc])
        nlinarith [mul_self_nonneg dy, mul_self_pos.mpr this]
      · have : dy ≠ 0 := fun hc => h (by rw [hdy] at hc; linarith [hc])
        nlinarith [mul_self_nonneg dx, mul_self_pos.mpr this]
    have hs0 : 0 < Real.sqrt (dx * dx + dy * dy) := Real.sqrt_pos.mpr hpos
    have hsne : Real.sqrt (dx * dx + dy * dy) ≠ 0 := ne_of_gt hs0
    rw [if_neg hsne] at hvx hvy
    have hsq : Real.sqrt (dx * dx + dy * dy) * Real.sqrt (dx * dx + dy * dy)
        = dx * dx + dy * dy := Real.mul_self_sqrt hpos.le
    constructor
    · rw [hvx, hvy]
      field_simp
      nlinarith [hsq]
    · refine ⟨5 / Real.sqrt (dx * dx + dy * dy), by positivity, ?_, ?_⟩
      · rw [hvx]; field_simp; ring
      · rw [hvy]; field_simp; ring
  · intro heq
    have h0 : dx = 0 := by rw [hdx, heq.1]; ring
    have h1 : dy = 0 := by rw [hdy, heq.2]; ring
    rw [h0, h1] at hvx hvy
    simp [Real.sqrt_zero] at hvx hvy
    exact ⟨by rw [hvx], by rw [hvy]⟩

/-- Witness for the takeHit claim at an agent 5 units from the player. -/
theorem takeHit_spec_witness :
    ¬(eC9.x = baseWorld.playerX ∧ eC9.y = baseWorld.playerY) ∧
      ((takeHit baseWorld eC9).1.vx - eC9.vx) ^ 2 +
        ((takeHit baseWorld eC9).1.vy - eC9.vy) ^ 2 = 25 := by
  have h : ¬(eC9.x = baseWorld.playerX ∧ eC9.y = baseWorld.playerY) := by
    simp [eC9, baseWorld, baseEnemy]
  exact ⟨h, ((takeHit_spec baseWorld eC9).2.2.1 h).1⟩

/-- The knockback step either leaves the position alone or advances it by the
velocity, and never touches any other field. -/
lemma knockbackStep_cases (w : World) (e : Enemy) :
    knockbackStep w e = e ∨
      (knockbackStep w e = { e with x := e.x + e.vx, y := e.y + e.vy } ∧
        w.isSolid ⌊(e.x + e.vx) / w.tile⌋ ⌊(e.y + e.vy) / w.tile⌋ = false) := by
  simp only [knockbackStep]
  split_ifs with h
  · exact Or.inr ⟨rfl, h.2⟩
  · exact Or.inl rfl

/-- The steering move changes only the position, the stuck counter and the
last-position memory, and the memory coincides with the new position. -/
lemma steerMove_shape (w : World) (inp : Input) (e : Enemy) (dist toPx toPy : ℝ) :
    ∃ a b s, steerMove w inp e dist toPx toPy =
      { e with x := a, y := b, stuckCounter := s, lastX := a, lastY := b } := by
  simp only [steerMove]
  rcases hp : (pickBest (finalScores w inp e dist toPx toPy)).1 with _ | i
  · simp only [hp]
    split_ifs
    all_goals exact ⟨_, _, _, rfl⟩
  · simp only [hp]
    split_ifs
    all_goals exact ⟨_, _, _, rfl⟩

/-- The steering move only ever moves onto a destination whose tile is not
solid. -/
lemma steerMove_pos (w : World) (inp : Input) (e : Enemy) (dist toPx toPy : ℝ) :
    ((steerMove w inp e dist toPx toPy).x = e.x ∧
      (steerMove w inp e dist toPx toPy).y = e.y) ∨
    w.isSolid ⌊(steerMove w inp e dist toPx toPy).x / w.tile⌋
      ⌊(steerMove w inp e dist toPx toPy).y / w.tile⌋ = false := by
  simp only [steerMove]
  rcases hp : (pickBest (finalScores w inp e dist toPx toPy)).1 with _ | i
  · simp only [hp]
    exact Or.inl ⟨trivial, trivial⟩
  · simp only [hp]
    split_ifs
    all_goals first
      | exact Or.inl ⟨rfl, rfl⟩
      | exact Or.inl ⟨trivial, trivial⟩
      | exact Or.inr (by simp_all)

/-- The dispatch step is a no-op while the cooldown is still positive. -/
lemma dispatchStep_cooldown_pos (w : World) (inp : Input) (e : Enemy)
    (dist toPx toPy : ℝ) (h : 0 < e.attackCooldown) :
    dispatchStep w inp e dist toPx toPy = (e, w, []) := by
  unfold dispatchStep
  rw [if_neg]
  rintro ⟨-, h2⟩
  omega

/-- The dispatch step never changes position, velocity, liveness, health or
profile of the agent. -/
lemma dispatchStep_shape (w : World) (inp : Input) (e : Enemy)
    (dist toPx toPy : ℝ) :
    (dispatchStep w inp e dist toPx toPy).1.x = e.x ∧
    (dispatchStep w inp e dist toPx toPy).1.y = e.y ∧
    (dispatchStep w inp e dist toPx toPy).1.dead = e.dead ∧
    (dispatchStep w inp e dist toPx toPy).1.vx = e.vx ∧
    (dispatchStep w inp e dist toPx toPy).1.vy = e.vy ∧
    (dispatchStep w inp e dist toPx toPy).1.hitFlash = e.hitFlash ∧
    (dispatchStep w inp e dist toPx toPy).1.hp = e.hp ∧
    (dispatchStep w inp e dist toPx toPy).1.damage = e.damage ∧
    (dispatchStep w inp e dist toPx toPy).1.id = e.id ∧
    (dispatchStep w inp e dist toPx toPy).1.attackStyle = e.attackStyle ∧
    (dispatchStep w inp e dist toPx toPy).1.deathTimer = e.deathTimer ∧
    (dispatchStep w inp e dist toPx toPy).1.ty = e.ty := by
  unfold dispatchStep startSwordSwing startDash fireProjectile doContactDamage
  split_ifs <;>
    exact ⟨rfl, rfl, rfl, rfl, rfl, rfl, rfl, rfl, rfl, rfl, rfl, rfl⟩

/-- A dispatch event pins down the new cooldown (the window of the dispatched
style) and certifies the cooldown gate held. -/
lemma dispatchStep_event (w : World) (inp : Input) (e : Enemy)
    (dist toPx toPy : ℝ) (s : Style)
    (h : Event.dispatch s ∈ (dispatchStep w inp e dist toPx toPy).2.2) :
    (dispatchStep w inp e dist toPx toPy).1.attackCooldown = cooldownTicks s ∧
      e.attackCooldown ≤ 0 ∧ e.id ∈ w.tokens := by
  unfold dispatchStep fireProjectile doContactDamage applyDamageToPlayer at h ⊢
  by_cases hg : e.id ∈ w.tokens ∧ e.attackCooldown ≤ 0
  · rw [if_pos hg] at h ⊢
    obtain ⟨hg1, hg2⟩ := hg
    split_ifs at h ⊢ <;> simp_all [cooldownTicks, startSwordSwing, startDash]
  · rw [if_neg hg] at h
    simp at h

/-- The swing step is a no-op when no swing is active. -/
lemma swingStep_not (w : World) (e : Enemy) (h : e.swordSwinging = false) :
    swingStep w e = (e, w, []) := by
  unfold swingStep
  simp [h]

/-- The swing step never changes position, velocity, cooldown, dash state,
liveness or profile, and never emits a dispatch event. -/
lemma swingStep_shape (w : World) (e : Enemy) :
    (swingStep w e).1.x = e.x ∧
    (swingStep w e).1.y = e.y ∧
    (swingStep w e).1.dead = e.dead ∧
    (swingStep w e).1.vx = e.vx ∧
    (swingStep w e).1.vy = e.vy ∧
    (swingStep w e).1.hitFlash = e.hitFlash ∧
    (swingStep w e).1.attackCooldown = e.attackCooldown ∧
    (swingStep w e).1.dashing = e.dashing ∧
    (swingStep w e).1.dashTimer = e.dashTimer ∧
    (swingStep w e).1.id = e.id ∧
    (swingStep w e).1.attackStyle = e.attackStyle ∧
    (swingStep w e).1.deathTimer = e.deathTimer ∧
    (swingStep w e).1.ty = e.ty ∧
    (∀ s : Style, Event.dispatch s ∉ (swingStep w e).2.2) := by
  simp only [swingStep, applyDamageToPlayer]
  split_ifs <;> simp

/-- Shape of the dash movement: either the dash cancels on a solid tile with
no movement, or the agent advances by the dash velocity onto a tile that is
not solid. -/
lemma dashMove_shape (w : World) (e : Enemy) :
    dashMove w e = { e with dashing := false, dashTimer := 0 } ∨
    (dashMove w e =
        { e with x := e.x + e.dashDirX * (2.5 + (w.difficulty - 1) * 0.3),
                 y := e.y + e.dashDirY * (2.5 + (w.difficulty - 1) * 0.3) } ∧
      w.isSolid ⌊(e.x + e.dashDirX * (2.5 + (w.difficulty - 1) * 0.3)) / w.tile⌋
        ⌊(e.y + e.dashDirY * (2.5 + (w.difficulty - 1) * 0.3)) / w.tile⌋ = false) := by
  simp only [dashMove]
  split_ifs with h
  · exact Or.inl rfl
  · exact Or.inr ⟨rfl, by simpa using h⟩

/-- Shape of the dash contact check: only the one-shot-hit flag of the agent
can change, and no dispatch event is emitted. -/
lemma dashHit_shape (w : World) (e : Enemy) :
    ((dashHit w e).1 = e ∨ (dashHit w e).1 = { e with dashHitPlayer := true }) ∧
    (∀ s : Style, Event.dispatch s ∉ (dashHit w e).2.2) := by
  simp only [dashHit, applyDamageToPlayer]
  split_ifs
  all_goals simp

/-- The dash end step changes only the dash flags. -/
lemma dashEnd_shape (e : Enemy) :
    dashEnd e = e ∨ dashEnd e = { e with dashing := false, dashHitPlayer := false } := by
  unfold dashEnd
  split_ifs
  · exact Or.inr rfl
  · exact Or.inl rfl

/-- The damage-free swing tick changes only the swing fields. -/
lemma dashSwing_shape (e : Enemy) :
    ∃ st an sw, dashSwing e =
      { e with swordSwingTimer := st, swordAngle := an, swordSwinging := sw } := by
  simp only [dashSwing]
  split_ifs
  all_goals exact ⟨_, _, _, rfl⟩

/-- The dash branch never changes cooldown, hit flash, liveness, health,
velocity or profile, never emits a dispatch event, and never requests
removal; its movement is either none or onto a non-solid destination. -/
lemma dashBranch_shape (w : World) (e : Enemy) :
    (dashBranch w e).enemy.dead = e.dead ∧
    (dashBranch w e).enemy.attackCooldown = e.attackCooldown ∧
    (dashBranch w e).enemy.hitFlash = e.hitFlash ∧
    (dashBranch w e).enemy.vx = e.vx ∧
    (dashBranch w e).enemy.vy = e.vy ∧
    (dashBranch w e).enemy.hp = e.hp ∧
    (dashBranch w e).enemy.id = e.id ∧
    (dashBranch w e).enemy.attackStyle = e.attackStyle ∧
    (dashBranch w e).enemy.deathTimer = e.deathTimer ∧
    (dashBranch w e).remove = false ∧
    (∀ s : Style, Event.dispatch s ∉ (dashBranch w e).events) ∧
    (((dashBranch w e).enemy.x = e.x ∧ (dashBranch w e).enemy.y = e.y) ∨
      w.isSolid ⌊(dashBranch w e).enemy.x / w.tile⌋
        ⌊(dashBranch w e).enemy.y / w.tile⌋ = false) := by
  have hbr : dashBranch w e =
      ⟨dashSwing (dashEnd (dashHit w (dashMove w (dashTick e))).1),
        (dashHit w (dashMove w (dashTick e))).2.1,
        (dashHit w (dashMove w (dashTick e))).2.2, false⟩ := rfl
  obtain ⟨hhit, hdisp⟩ := dashHit_shape w (dashMove w (dashTick e))
  obtain ⟨st, an, sw, hswing⟩ :=
    dashSwing_shape (dashEnd (dashHit w (dashMove w (dashTick e))).1)
  rw [hbr]
  rcases hhit with h | h <;>
    rcases dashEnd_shape (dashHit w (dashMove w (dashTick e))).1 with h2 | h2 <;>
      rcases dashMove_shape w (dashTick e) with hm | ⟨hm, hsol⟩ <;>
        rw [hswing, h2, h, hm] <;>
        simp_all [dashTick]

/-- Projections of the pre-steering state (counters ticked, knockback applied
and decayed): every field except position and velocity is as tickCounters
left it, and the position either stays or advances by the knockback velocity
onto a non-solid tile. -/
lemma afterKb_proj (w : World) (e : Enemy) :
    (decayVel (knockbackStep w (tickCounters e))).hitFlash = (tickCounters e).hitFlash ∧
    (decayVel (knockbackStep w (tickCounters e))).attackCooldown
      = (tickCounters e).attackCooldown ∧
    (decayVel (knockbackStep w (tickCounters e))).dashing = e.dashing ∧
    (decayVel (knockbackStep w (tickCounters e))).dashTimer = e.dashTimer ∧
    (decayVel (knockbackStep w (tickCounters e))).dashHitPlayer = e.dashHitPlayer ∧
    (decayVel (knockbackStep w (tickCounters e))).dead = e.dead ∧
    (decayVel (knockbackStep w (tickCounters e))).vx = e.vx * 0.78 ∧
    (decayVel (knockbackStep w (tickCounters e))).vy = e.vy * 0.78 ∧
    (decayVel (knockbackStep w (tickCounters e))).swordSwinging = e.swordSwinging ∧
    (decayVel (knockbackStep w (tickCounters e))).swordSwingTimer = e.swordSwingTimer ∧
    (decayVel (knockbackStep w (tickCounters e))).swordAngle = e.swordAngle ∧
    (decayVel (knockbackStep w (tickCounters e))).swordSwingDir = e.swordSwingDir ∧
    (decayVel (knockbackStep w (tickCounters e))).attackStyle = e.attackStyle ∧
    (decayVel (knockbackStep w (tickCounters e))).id = e.id ∧
    (decayVel (knockbackStep w (tickCounters e))).hp = e.hp ∧
    (decayVel (knockbackStep w (tickCounters e))).damage = e.damage ∧
    (decayVel (knockbackStep w (tickCounters e))).deathTimer = e.deathTimer ∧
    (decayVel (knockbackStep w (tickCounters e))).ty = e.ty ∧
    ((((decayVel (knockbackStep w (tickCounters e))).x = e.x ∧
        (decayVel (knockbackStep w (tickCounters e))).y = e.y)) ∨
      (((decayVel (knockbackStep w (tickCounters e))).x = e.x + e.vx ∧
          (decayVel (knockbackStep w (tickCounters e))).y = e.y + e.vy) ∧
        w.isSolid ⌊(e.x + e.vx) / w.tile⌋ ⌊(e.y + e.vy) / w.tile⌋ = false)) := by
  rcases knockbackStep_cases w (tickCounters e) with h | ⟨h, hsol⟩
  · rw [decayVel, h]
    simp [tickCounters]
  · rw [decayVel, h]
    simp only [tickCounters] at hsol
    simp [tickCounters, hsol]

/-- Path of update for a dead agent: only the death timer moves and the
removal flag reports its expiry. -/
lemma updateEnemy_dead (w : World) (inp : Input) (e : Enemy) (h : e.dead = true) :
    updateEnemy w inp e =
      ⟨{ e with deathTimer := e.deathTimer - 1 }, w, [],
        decide (e.deathTimer - 1 ≤ 0)⟩ := by
  unfold updateEnemy
  rw [if_pos h]

/-- Path of update under hit stun or strong knockback: the early return
right after the knockback section. -/
lemma updateEnemy_stun (w : World) (inp : Input) (e : Enemy)
    (hdead : e.dead = false)
    (hcond : 0 < (tickCounters e).hitFlash
      ∨ 1.5 < Real.sqrt (e.vx * e.vx + e.vy * e.vy)) :
    updateEnemy w inp e =
      ⟨decayVel (knockbackStep w (tickCounters e)), w, [], false⟩ := by
  have hc2 : 0 < (decayVel (knockbackStep w (tickCounters e))).hitFlash
      ∨ 1.5 < Real.sqrt ((tickCounters e).vx * (tickCounters e).vx
          + (tickCounters e).vy * (tickCounters e).vy) := by
    rcases hcond with h | h
    · exact Or.inl (by rw [(afterKb_proj w e).1]; exact h)
    · exact Or.inr h
  unfold updateEnemy
  rw [if_neg (by simp [hdead]), if_pos hc2]

/-- Path of update for a live, unstunned, dashing agent. -/
lemma updateEnemy_dashing (w : World) (inp : Input) (e : Enemy)
    (hdead : e.dead = false)
    (hcond : ¬(0 < (tickCounters e).hitFlash
      ∨ 1.5 < Real.sqrt (e.vx * e.vx + e.vy * e.vy)))
    (hdash : e.dashing = true) :
    updateEnemy w inp e = dashBranch w (decayVel (knockbackStep w (tickCounters e))) := by
  have hc2 : ¬(0 < (decayVel (knockbackStep w (tickCounters e))).hitFlash
      ∨ 1.5 < Real.sqrt ((tickCounters e).vx * (tickCounters e).vx
          + (tickCounters e).vy * (tickCounters e).vy)) := by
    rw [(afterKb_proj w e).1]
    exact hcond
  unfold updateEnemy
  rw [if_neg (by simp [hdead]), if_neg hc2,
    if_pos (by rw [(afterKb_proj w e).2.2.1]; exact hdash)]

/-- Path of update for a live, unstunned, non-dashing agent: steering with
attack dispatch. -/
lemma updateEnemy_steer (w : World) (inp : Input) (e : Enemy)
    (hdead : e.dead = false)
    (hcond : ¬(0 < (tickCounters e).hitFlash
      ∨ 1.5 < Real.sqrt (e.vx * e.vx + e.vy * e.vy)))
    (hdash : e.dashing = false) :
    updateEnemy w inp e = steerAttack w inp (decayVel (knockbackStep w (tickCounters e))) := by
  have hc2 : ¬(0 < (decayVel (knockbackStep w (tickCounters e))).hitFlash
      ∨ 1.5 < Real.sqrt ((tickCounters e).vx * (tickCounters e).vx
          + (tickCounters e).vy * (tickCounters e).vy)) := by
    rw [(afterKb_proj w e).1]
    exact hcond
  unfold updateEnemy
  rw [if_neg (by simp [hdead]), if_neg hc2,
    if_neg (by rw [(afterKb_proj w e).2.2.1]; simp [hdash])]

/-- Unfolding equation of steerAttack as a plain composition. -/
lemma steerAttack_eq (w : World) (inp : Input) (e : Enemy) :
    steerAttack w inp e =
      ⟨(swingStep
          (dispatchStep w inp
            (steerMove w inp e (playerDist w e) (toPlayerX w e) (toPlayerY w e))
            (playerDist w e) (toPlayerX w e) (toPlayerY w e)).2.1
          (dispatchStep w inp
            (steerMove w inp e (playerDist w e) (toPlayerX w e) (toPlayerY w e))
            (playerDist w e) (toPlayerX w e) (toPlayerY w e)).1).1,
        (swingStep
          (dispatchStep w inp
            (steerMove w inp e (playerDist w e) (toPlayerX w e) (toPlayerY w e))
            (playerDist w e) (toPlayerX w e) (toPlayerY w e)).2.1
          (dispatchStep w inp
            (steerMove w inp e (playerDist w e) (toPlayerX w e) (toPlayerY w e))
            (playerDist w e) (toPlayerX w e) (toPlayerY w e)).1).2.1,
        (dispatchStep w inp
            (steerMove w inp e (playerDist w e) (toPlayerX w e) (toPlayerY w e))
            (playerDist w e) (toPlayerX w e) (toPlayerY w e)).2.2 ++
          (swingStep
            (dispatchStep w inp
              (steerMove w inp e (playerDist w e) (toPlayerX w e) (toPlayerY w e))
              (playerDist w e) (toPlayerX w e) (toPlayerY w e)).2.1
            (dispatchStep w inp
              (steerMove w inp e (playerDist w e) (toPlayerX w e) (toPlayerY w e))
              (playerDist w e) (toPlayerX w e) (toPlayerY w e)).1).2.2,
        false⟩ := rfl

/-- C10: while mid-dash, a tick on which the decremented hit flash is still
positive or the knockback speed is above 1.5 never reaches the dash branch:
the dash timer and flags are untouched, no event (in particular no dash
damage) is emitted, the world is untouched, and the only possible movement is
the knockback displacement. -/
theorem dash_paused_by_hitstun (w : World) (inp : Input) (e : Enemy)
    (hdead : e.dead = false) (hdash : e.dashing = true)
    (hcond : 0 < (if 0 < e.hitFlash then e.hitFlash - 1 else e.hitFlash)
      ∨ 1.5 < Real.sqrt (e.vx * e.vx + e.vy * e.vy)) :
    (updateEnemy w inp e).enemy.dashTimer = e.dashTimer ∧
    (updateEnemy w inp e).enemy.dashing = true ∧
    (updateEnemy w inp e).enemy.dashHitPlayer = e.dashHitPlayer ∧
    (updateEnemy w inp e).events = [] ∧
    (updateEnemy w inp e).world = w ∧
    (((updateEnemy w inp e).enemy.x = e.x ∧ (updateEnemy w inp e).enemy.y = e.y) ∨
      ((updateEnemy w inp e).enemy.x = e.x + e.vx ∧
        (updateEnemy w inp e).enemy.y = e.y + e.vy)) := by
  have h := updateEnemy_stun w inp e hdead (by simpa [tickCounters] using hcond)
  obtain ⟨-, -, hdsh, hdt, hdhp, -, -, -, -, -, -, -, -, -, -, -, -, -, hpos⟩ :=
    afterKb_proj w e
  rw [h]
  refine ⟨hdt, by rw [hdsh]; exact hdash, hdhp, rfl, rfl, ?_⟩
  rcases hpos with hl | ⟨hr, -⟩
  · exact Or.inl hl
  · exact Or.inr hr

/-- Witness for the dash-pause claim: a dashing agent with hit flash 5 and no
knockback keeps its dash timer. -/
theorem dash_paused_by_hitstun_witness :
    ({ baseEnemy with dashing := true, dashTimer := 7, hitFlash := 5 } : Enemy).dead = false ∧
    (updateEnemy baseWorld inp0
        { baseEnemy with dashing := true, dashTimer := 7, hitFlash := 5 }).enemy.dashTimer
      = ({ baseEnemy with dashing := true, dashTimer := 7, hitFlash := 5 } : Enemy).dashTimer := by
  refine ⟨rfl, ?_⟩
  exact (dash_paused_by_hitstun baseWorld inp0 _ rfl rfl (Or.inl (by norm_num [baseEnemy]))).1

/-- Position of steerAttack: either unchanged or on a non-solid tile. -/
lemma steerAttack_pos (w : World) (inp : Input) (e : Enemy) :
    ((steerAttack w inp e).enemy.x = e.x ∧ (steerAttack w inp e).enemy.y = e.y) ∨
    w.isSolid ⌊(steerAttack w inp e).enemy.x / w.tile⌋
      ⌊(steerAttack w inp e).enemy.y / w.tile⌋ = false := by
  have hfx : (steerAttack w inp e).enemy.x
      = (steerMove w inp e (playerDist w e) (toPlayerX w e) (toPlayerY w e)).x :=
    ((swingStep_shape
        (dispatchStep w inp
          (steerMove w inp e (playerDist w e) (toPlayerX w e) (toPlayerY w e))
          (playerDist w e) (toPlayerX w e) (toPlayerY w e)).2.1
        (dispatchStep w inp
          (steerMove w inp e (playerDist w e) (toPlayerX w e) (toPlayerY w e))
          (playerDist w e) (toPlayerX w e) (toPlayerY w e)).1).1).trans
      (dispatchStep_shape w inp
        (steerMove w inp e (playerDist w e) (toPlayerX w e) (toPlayerY w e))
        (playerDist w e) (toPlayerX w e) (toPlayerY w e)).1
  have hfy : (steerAttack w inp e).enemy.y
      = (steerMove w inp e (playerDist w e) (toPlayerX w e) (toPlayerY w e)).y :=
    ((swingStep_shape
        (dispatchStep w inp
          (steerMove w inp e (playerDist w e) (toPlayerX w e) (toPlayerY w e))
          (playerDist w e) (toPlayerX w e) (toPlayerY w e)).2.1
        (dispatchStep w inp
          (steerMove w inp e (playerDist w e) (toPlayerX w e) (toPlayerY w e))
          (playerDist w e) (toPlayerX w e) (toPlayerY w e)).1).2.1).trans
      (dispatchStep_shape w inp
        (steerMove w inp e (playerDist w e) (toPlayerX w e) (toPlayerY w e))
        (playerDist w e) (toPlayerX w e) (toPlayerY w e)).2.1
  rcases steerMove_pos w inp e (playerDist w e) (toPlayerX w e) (toPlayerY w e) with
    ⟨h1, h2⟩ | hsolid
  · exact Or.inl ⟨hfx.trans h1, hfy.trans h2⟩
  · rw [hfx, hfy]
    exact Or.inr hsolid

/-- C4: an agent standing on a non-solid tile is still on a non-solid tile
after its whole per-tick update (knockback movement, steering movement and
dash movement each check the destination tile and refuse to enter solid
ground). -/
theorem wall_impermeability (w : World) (inp : Input) (e : Enemy)
    (hfree : w.isSolid ⌊e.x / w.tile⌋ ⌊e.y / w.tile⌋ = false) :
    w.isSolid ⌊(updateEnemy w inp e).enemy.x / w.tile⌋
      ⌊(updateEnemy w inp e).enemy.y / w.tile⌋ = false := by
  have hkb : w.isSolid ⌊(decayVel (knockbackStep w (tickCounters e))).x / w.tile⌋
      ⌊(decayVel (knockbackStep w (tickCounters e))).y / w.tile⌋ = false := by
    obtain ⟨-, -, -, -, -, -, -, -, -, -, -, -, -, -, -, -, -, -, hpos⟩ :=
      afterKb_proj w e
    rcases hpos with ⟨h1, h2⟩ | ⟨⟨h1, h2⟩, hsol⟩
    · rw [h1, h2]
      exact hfree
    · rw [h1, h2]
      exact hsol
  by_cases hd : e.dead
  · rw [updateEnemy_dead w inp e hd]
    exact hfree
  · have hdead : e.dead = false := by simpa using hd
    by_cases hstun : 0 < (tickCounters e).hitFlash
        ∨ 1.5 < Real.sqrt (e.vx * e.vx + e.vy * e.vy)
    · rw [updateEnemy_stun w inp e hdead hstun]
      exact hkb
    · by_cases hdash : e.dashing
      · rw [updateEnemy_dashing w inp e hdead hstun hdash]
        obtain ⟨-, -, -, -, -, -, -, -, -, -, -, hpos⟩ :=
          dashBranch_shape w (decayVel (knockbackStep w (tickCounters e)))
        rcases hpos with ⟨h1, h2⟩ | hsol
        · rw [h1, h2]
          exact hkb
        · exact hsol
      · have hdash2 : e.dashing = false := by simpa using hdash
        rw [updateEnemy_steer w inp e hdead hstun hdash2]
        rcases steerAttack_pos w inp (decayVel (knockbackStep w (tickCounters e))) with
          ⟨h1, h2⟩ | hsol
        · rw [h1, h2]
          exact hkb
        · exact hsol

/-- Witness for wall impermeability in the unwalled base world. -/
theorem wall_impermeability_witness :
    baseWorld.isSolid ⌊baseEnemy.x / baseWorld.tile⌋ ⌊baseEnemy.y / baseWorld.tile⌋ = false ∧
    baseWorld.isSolid ⌊(updateEnemy baseWorld inp0 baseEnemy).enemy.x / baseWorld.tile⌋
      ⌊(updateEnemy baseWorld inp0 baseEnemy).enemy.y / baseWorld.tile⌋ = false :=
  ⟨rfl, wall_impermeability baseWorld inp0 baseEnemy rfl⟩

/-- With a positive cooldown at the steering stage no dispatch happens:
events carry no dispatch, and cooldown, liveness and swing state pass
through. -/
lemma steerAttack_no_dispatch (w : World) (inp : Input) (e : Enemy)
    (hcd : 0 < e.attackCooldown) :
    (∀ s : Style, Event.dispatch s ∉ (steerAttack w inp e).events) ∧
    (steerAttack w inp e).enemy.attackCooldown = e.attackCooldown ∧
    (steerAttack w inp e).enemy.dead = e.dead := by
  obtain ⟨a, b, sc, hsm⟩ :=
    steerMove_shape w inp e (playerDist w e) (toPlayerX w e) (toPlayerY w e)
  have hcd4 : (steerMove w inp e (playerDist w e) (toPlayerX w e)
      (toPlayerY w e)).attackCooldown = e.attackCooldown := by rw [hsm]
  have hnoop := dispatchStep_cooldown_pos w inp
    (steerMove w inp e (playerDist w e) (toPlayerX w e) (toPlayerY w e))
    (playerDist w e) (toPlayerX w e) (toPlayerY w e) (by rw [hcd4]; exact hcd)
  rw [steerAttack_eq, hnoop]
  obtain ⟨-, -, hsdead, -, -, -, hscool, -, -, -, -, -, -, hsev⟩ :=
    swingStep_shape w
      (steerMove w inp e (playerDist w e) (toPlayerX w e) (toPlayerY w e))
  refine ⟨?_, ?_, ?_⟩
  · intro s
    simp only [List.nil_append]
    exact hsev s
  · rw [hscool, hcd4]
  · rw [hsdead, hsm]

/-- A tick that starts with attackCooldown at least 2 dispatches nothing:
the cooldown just decrements and the agent stays live. -/
lemma updateEnemy_cooldown_tick (w : World) (inp : Input) (e : Enemy)
    (hdead : e.dead = false) (hcd : 2 ≤ e.attackCooldown) :
    (∀ s : Style, Event.dispatch s ∉ (updateEnemy w inp e).events) ∧
    (updateEnemy w inp e).enemy.attackCooldown = e.attackCooldown - 1 ∧
    (updateEnemy w inp e).enemy.dead = false := by
  have htc : (tickCounters e).attackCooldown = e.attackCooldown - 1 := by
    simp only [tickCounters]
    rw [if_pos (by omega)]
  obtain ⟨-, hacool, -, -, -, hadead, -, -, -, -, -, -, -, -, -, -, -, -, -⟩ :=
    afterKb_proj w e
  by_cases hstun : 0 < (tickCounters e).hitFlash
      ∨ 1.5 < Real.sqrt (e.vx * e.vx + e.vy * e.vy)
  · rw [updateEnemy_stun w inp e hdead hstun]
    exact ⟨fun s => by simp, by rw [hacool, htc], by rw [hadead, hdead]⟩
  · by_cases hdash : e.dashing
    · rw [updateEnemy_dashing w inp e hdead hstun hdash]
      obtain ⟨hbd, hbc, -, -, -, -, -, -, -, -, hbev, -⟩ :=
        dashBranch_shape w (decayVel (knockbackStep w (tickCounters e)))
      exact ⟨hbev, by rw [hbc, hacool, htc], by rw [hbd, hadead, hdead]⟩
    · have hdash2 : e.dashing = false := by simpa using hdash
      rw [updateEnemy_steer w inp e hdead hstun hdash2]
      obtain ⟨hev, hcool, hd⟩ := steerAttack_no_dispatch w inp
        (decayVel (knockbackStep w (tickCounters e)))
        (by rw [hacool, htc]; omega)
      exact ⟨hev, by rw [hcool, hacool, htc], by rw [hd, hadead, hdead]⟩

/-- The steered path never changes the dead flag. -/
lemma steerAttack_dead (w : World) (inp : Input) (e : Enemy) :
    (steerAttack w inp e).enemy.dead = e.dead := by
  set dist := playerDist w e with hdist
  set tx := toPlayerX w e with htx
  set ty0 := toPlayerY w e with hty
  set em := steerMove w inp e dist tx ty0 with hem
  set D := dispatchStep w inp em dist tx ty0 with hD
  have h1 := (swingStep_shape D.2.1 D.1).2.2.1
  have h2 := (dispatchStep_shape w inp em dist tx ty0).2.2.1
  obtain ⟨a, b, sc, hsm⟩ := steerMove_shape w inp e dist tx ty0
  have h3 : em.dead = e.dead := by rw [hem, hsm]
  exact h1.trans (h2.trans h3)

/-- The per-agent update never changes the dead flag (only takeHit kills an
agent). -/
lemma updateEnemy_dead_eq (w : World) (inp : Input) (e : Enemy) :
    (updateEnemy w inp e).enemy.dead = e.dead := by
  obtain ⟨-, -, -, -, -, hadead, -, -, -, -, -, -, -, -, -, -, -, -, -⟩ :=
    afterKb_proj w e
  by_cases hd : e.dead
  · rw [updateEnemy_dead w inp e hd]
  · have hdead : e.dead = false := by simpa using hd
    by_cases hstun : 0 < (tickCounters e).hitFlash
        ∨ 1.5 < Real.sqrt (e.vx * e.vx + e.vy * e.vy)
    · rw [updateEnemy_stun w inp e hdead hstun]
      exact hadead
    · by_cases hdash : e.dashing
      · rw [updateEnemy_dashing w inp e hdead hstun hdash]
        obtain ⟨hbd, -⟩ :=
          dashBranch_shape w (decayVel (knockbackStep w (tickCounters e)))
        rw [hbd, hadead]
      · have hdash2 : e.dashing = false := by simpa using hdash
        rw [updateEnemy_steer w inp e hdead hstun hdash2]
        rw [steerAttack_dead w inp (decayVel (knockbackStep w (tickCounters e))), hadead]

/-- Across any run of ticks shorter than the pending cooldown, a live agent
dispatches no attack. -/
lemma run_dispatchFree : ∀ (steps : List (World × Input)) (e : Enemy),
    e.dead = false → (steps.length : ℤ) < e.attackCooldown →
    dispatchFreeRun e steps := by
  intro steps
  induction steps with
  | nil => exact fun e _ _ => trivial
  | cons p rest ih =>
    intro e hdead hlen
    obtain ⟨w, inp⟩ := p
    have hcd : 2 ≤ e.attackCooldown := by
      simp only [List.length_cons] at hlen
      omega
    obtain ⟨hev, hcool, hdead2⟩ := updateEnemy_cooldown_tick w inp e hdead hcd
    refine ⟨hev, ih _ hdead2 ?_⟩
    rw [hcool]
    simp only [List.length_cons] at hlen
    omega

/-- A dispatch event from the steered path pins the new cooldown to the
window of the dispatched style. -/
lemma steerAttack_dispatch_cooldown (w : World) (inp : Input) (e : Enemy)
    (s : Style) (h : Event.dispatch s ∈ (steerAttack w inp e).events) :
    (steerAttack w inp e).enemy.attackCooldown = cooldownTicks s := by
  set dist := playerDist w e with hdist
  set tx := toPlayerX w e with htx
  set ty0 := toPlayerY w e with hty
  set em := steerMove w inp e dist tx ty0 with hem
  set D := dispatchStep w inp em dist tx ty0 with hD
  have hev : (steerAttack w inp e).events = D.2.2 ++ (swingStep D.2.1 D.1).2.2 := rfl
  obtain ⟨-, -, -, -, -, -, hscool, -, -, -, -, -, -, hsev⟩ :=
    swingStep_shape D.2.1 D.1
  rw [hev] at h
  rcases List.mem_append.mp h with h | h
  · have hcool1 := (dispatchStep_event w inp em dist tx ty0 s h).1
    exact hscool.trans hcool1
  · exact absurd h (hsev s)

/-- A dispatch event from the whole update pins the new cooldown to the
window of the dispatched style. -/
lemma updateEnemy_dispatch_cooldown (w : World) (inp : Input) (e : Enemy)
    (s : Style) (h : Event.dispatch s ∈ (updateEnemy w inp e).events) :
    (updateEnemy w inp e).enemy.attackCooldown = cooldownTicks s := by
  by_cases hd : e.dead
  · rw [updateEnemy_dead w inp e hd] at h
    simp at h
  · have hdead : e.dead = false := by simpa using hd
    by_cases hstun : 0 < (tickCounters e).hitFlash
        ∨ 1.5 < Real.sqrt (e.vx * e.vx + e.vy * e.vy)
    · rw [updateEnemy_stun w inp e hdead hstun] at h
      simp at h
    · by_cases hdash : e.dashing
      · rw [updateEnemy_dashing w inp e hdead hstun hdash] at h
        obtain ⟨-, -, -, -, -, -, -, -, -, -, hbev, -⟩ :=
          dashBranch_shape w (decayVel (knockbackStep w (tickCounters e)))
        exact absurd h (hbev s)
      · have hdash2 : e.dashing = false := by simpa using hdash
        rw [updateEnemy_steer w inp e hdead hstun hdash2] at h ⊢
        exact steerAttack_dispatch_cooldown w inp _ s h

/-- C5: once an attack of some style is dispatched, the cooldown counter is
set to that style window (contact 60, sword 70, dash 90, projectile 90)
and, while strictly fewer ticks than the window have elapsed, no further
attack of any style is dispatched, the counter falling by one each tick. -/
theorem cooldown_respected (w : World) (inp : Input) (e : Enemy) (s : Style)
    (steps : List (World × Input))
    (hdead : e.dead = false)
    (hdisp : Event.dispatch s ∈ (updateEnemy w inp e).events)
    (hlen : (steps.length : ℤ) < cooldownTicks s) :
    (updateEnemy w inp e).enemy.attackCooldown = cooldownTicks s ∧
      dispatchFreeRun (updateEnemy w inp e).enemy steps := by
  have h1 := updateEnemy_dispatch_cooldown w inp e s hdisp
  have h2 : (updateEnemy w inp e).enemy.dead = false := by
    rw [updateEnemy_dead_eq]
    exact hdead
  exact ⟨h1, run_dispatchFree steps _ h2 (by rw [h1]; exact hlen)⟩

/-- Full evaluation of one tick for the concrete contact scenario: the agent
at the origin, the player 10 units east, token held, cooldown zero.  The
contact attack dispatches: the player takes the 2 damage, the PLAYER velocity
is pulled toward the agent (velX becomes -2.5), and the agent velocity stays
zero. -/
lemma contact_eval :
    (updateEnemy wC3 inp0 eC3).events
        = [Event.dispatch Style.contact, Event.damagePlayer 2] ∧
    (updateEnemy wC3 inp0 eC3).enemy.vx = 0 ∧
    (updateEnemy wC3 inp0 eC3).enemy.vy = 0 ∧
    (updateEnemy wC3 inp0 eC3).world.velX = -2.5 ∧
    (updateEnemy wC3 inp0 eC3).world.velY = 0 ∧
    (updateEnemy wC3 inp0 eC3).world.hp = 8 := by
  have hvx : eC3.vx = 0 := rfl
  have hvy : eC3.vy = 0 := rfl
  have hstun : ¬(0 < (tickCounters eC3).hitFlash
      ∨ 1.5 < Real.sqrt (eC3.vx * eC3.vx + eC3.vy * eC3.vy)) := by
    rw [hvx, hvy]
    norm_num [tickCounters, Real.sqrt_zero, eC3, baseEnemy]
  have hpath := updateEnemy_steer wC3 inp0 eC3 rfl hstun rfl
  have htck : tickCounters eC3 = eC3 := by
    simp [tickCounters, eC3, baseEnemy]
  have hkb : knockbackStep wC3 eC3 = eC3 := by
    simp only [knockbackStep, hvx, hvy]
    rw [if_neg]
    norm_num [Real.sqrt_zero]
  have hdk : decayVel eC3 = eC3 := by
    simp [decayVel, eC3, baseEnemy]
  have hdist : playerDist wC3 eC3 = 10 := by
    simp only [playerDist, wC3, eC3, baseWorld, baseEnemy]
    rw [show ((10:ℝ) - 0) * ((10:ℝ) - 0) + ((0:ℝ) - 0) * ((0:ℝ) - 0) = 10 ^ 2 by norm_num,
      Real.sqrt_sq (by norm_num : (0:ℝ) ≤ 10)]
  have htx : toPlayerX wC3 eC3 = 1 := by
    simp only [toPlayerX, hdist]
    rw [if_pos (by norm_num)]
    simp [wC3, eC3, baseWorld, baseEnemy]
  have hty : toPlayerY wC3 eC3 = 0 := by
    simp only [toPlayerY, hdist]
    rw [if_pos (by norm_num)]
    simp [wC3, eC3, baseWorld, baseEnemy]
  obtain ⟨a, b, sc, hem⟩ := steerMove_shape wC3 inp0 eC3 10 1 0
  have hid : (steerMove wC3 inp0 eC3 10 1 0).id ∈ wC3.tokens := by
    rw [hem]
    show (0 : ℕ) ∈ [0]
    simp
  have hcool : (steerMove wC3 inp0 eC3 10 1 0).attackCooldown ≤ 0 := by
    rw [hem]
    show (0 : ℤ) ≤ 0
    exact le_refl 0
  have hstyle : (steerMove wC3 inp0 eC3 10 1 0).attackStyle = Style.contact := by
    rw [hem]
    rfl
  have hdsp : dispatchStep wC3 inp0 (steerMove wC3 inp0 eC3 10 1 0) 10 1 0
      = ((doContactDamage wC3 (steerMove wC3 inp0 eC3 10 1 0) 1 0).1,
          (doContactDamage wC3 (steerMove wC3 inp0 eC3 10 1 0) 1 0).2.1,
          Event.dispatch Style.contact
            :: (doContactDamage wC3 (steerMove wC3 inp0 eC3 10 1 0) 1 0).2.2) := by
    unfold dispatchStep
    rw [if_pos ⟨hid, hcool⟩, if_neg (by simp [hstyle]), if_neg (by simp [hstyle]),
      if_neg (by simp [hstyle]), if_pos ⟨hstyle, by norm_num⟩]
  have hguard : (0:ℝ) < Real.sqrt ((1:ℝ) * 1 + 0 * 0) := by
    rw [show ((1:ℝ) * 1 + 0 * 0 : ℝ) = 1 by norm_num, Real.sqrt_one]
    norm_num
  have hnoflee : ¬(wC3.hp - (steerMove wC3 inp0 eC3 10 1 0).damage ≤ 0) := by
    rw [hem]
    show ¬((10:ℤ) - 2 ≤ 0)
    norm_num
  have hcd : doContactDamage wC3 (steerMove wC3 inp0 eC3 10 1 0) 1 0
      = ({ steerMove wC3 inp0 eC3 10 1 0 with attackCooldown := 60 },
          { wC3 with hp := wC3.hp - (steerMove wC3 inp0 eC3 10 1 0).damage,
                     damageFlash := 12,
                     velX := wC3.velX - 1 * 2.5,
                     velY := wC3.velY - 0 * 2.5 },
          [Event.damagePlayer (steerMove wC3 inp0 eC3 10 1 0).damage]) := by
    simp only [doContactDamage, applyDamageToPlayer]
    rw [if_pos hguard, if_neg hnoflee]
  have hsw : (doContactDamage wC3 (steerMove wC3 inp0 eC3 10 1 0) 1 0).1.swordSwinging
      = false := by
    rw [hcd, hem]
    rfl
  have hswing := swingStep_not
    (doContactDamage wC3 (steerMove wC3 inp0 eC3 10 1 0) 1 0).2.1
    (doContactDamage wC3 (steerMove wC3 inp0 eC3 10 1 0) 1 0).1 hsw
  have hdamage : (steerMove wC3 inp0 eC3 10 1 0).damage = 2 := by
    rw [hem]
    rfl
  refine ⟨?_, ?_, ?_, ?_, ?_, ?_⟩
  · show (updateEnemy wC3 inp0 eC3).events
        = [Event.dispatch Style.contact, Event.damagePlayer 2]
    rw [hpath, htck, hkb, hdk, steerAttack_eq, hdist, htx, hty]
    show (dispatchStep wC3 inp0 (steerMove wC3 inp0 eC3 10 1 0) 10 1 0).2.2
        ++ (swingStep
            (dispatchStep wC3 inp0 (steerMove wC3 inp0 eC3 10 1 0) 10 1 0).2.1
            (dispatchStep wC3 inp0 (steerMove wC3 inp0 eC3 10 1 0) 10 1 0).1).2.2
        = [Event.dispatch Style.contact, Event.damagePlayer 2]
    rw [hdsp]
    show (Event.dispatch Style.contact
          :: (doContactDamage wC3 (steerMove wC3 inp0 eC3 10 1 0) 1 0).2.2)
        ++ (swingStep (doContactDamage wC3 (steerMove wC3 inp0 eC3 10 1 0) 1 0).2.1
            (doContactDamage wC3 (steerMove wC3 inp0 eC3 10 1 0) 1 0).1).2.2
        = [Event.dispatch Style.contact, Event.damagePlayer 2]
    rw [hswing, hcd, hdamage]
    rfl
  · rw [hpath, htck, hkb, hdk, steerAttack_eq, hdist, htx, hty]
    show (swingStep
        (dispatchStep wC3 inp0 (steerMove wC3 inp0 eC3 10 1 0) 10 1 0).2.1
        (dispatchStep wC3 inp0 (steerMove wC3 inp0 eC3 10 1 0) 10 1 0).1).1.vx = 0
    rw [hdsp]
    show (swingStep (doContactDamage wC3 (steerMove wC3 inp0 eC3 10 1 0) 1 0).2.1
        (doContactDamage wC3 (steerMove wC3 inp0 eC3 10 1 0) 1 0).1).1.vx = 0
    rw [hswing]
    show (doContactDamage wC3 (steerMove wC3 inp0 eC3 10 1 0) 1 0).1.vx = 0
    rw [hcd]
    show (steerMove wC3 inp0 eC3 10 1 0).vx = 0
    rw [hem]
    rfl
  · rw [hpath, htck, hkb, hdk, steerAttack_eq, hdist, htx, hty]
    show (swingStep
        (dispatchStep wC3 inp0 (steerMove wC3 inp0 eC3 10 1 0) 10 1 0).2.1
        (dispatchStep wC3 inp0 (steerMove wC3 inp0 eC3 10 1 0) 10 1 0).1).1.vy = 0
    rw [hdsp]
    show (swingStep (doContactDamage wC3 (steerMove wC3 inp0 eC3 10 1 0) 1 0).2.1
        (doContactDamage wC3 (steerMove wC3 inp0 eC3 10 1 0) 1 0).1).1.vy = 0
    rw [hswing]
    show (doContactDamage wC3 (steerMove wC3 inp0 eC3 10 1 0) 1 0).1.vy = 0
    rw [hcd]
    show (steerMove wC3 inp0 eC3 10 1 0).vy = 0
    rw [hem]
    rfl
  · rw [hpath, htck, hkb, hdk, steerAttack_eq, hdist, htx, hty]
    show (swingStep
        (dispatchStep wC3 inp0 (steerMove wC3 inp0 eC3 10 1 0) 10 1 0).2.1
        (dispatchStep wC3 inp0 (steerMove wC3 inp0 eC3 10 1 0) 10 1 0).1).2.1.velX = -2.5
    rw [hdsp]
    show (swingStep (doContactDamage wC3 (steerMove wC3 inp0 eC3 10 1 0) 1 0).2.1
        (doContactDamage wC3 (steerMove wC3 inp0 eC3 10 1 0) 1 0).1).2.1.velX = -2.5
    rw [hswing]
    show (doContactDamage wC3 (steerMove wC3 inp0 eC3 10 1 0) 1 0).2.1.velX = -2.5
    rw [hcd]
    show wC3.velX - 1 * 2.5 = -2.5
    norm_num [wC3, baseWorld]
  · rw [hpath, htck, hkb, hdk, steerAttack_eq, hdist, htx, hty]
    show (swingStep
        (dispatchStep wC3 inp0 (steerMove wC3 inp0 eC3 10 1 0) 10 1 0).2.1
        (dispatchStep wC3 inp0 (steerMove wC3 inp0 eC3 10 1 0) 10 1 0).1).2.1.velY = 0
    rw [hdsp]
    show (swingStep (doContactDamage wC3 (steerMove wC3 inp0 eC3 10 1 0) 1 0).2.1
        (doContactDamage wC3 (steerMove wC3 inp0 eC3 10 1 0) 1 0).1).2.1.velY = 0
    rw [hswing]
    show (doContactDamage wC3 (steerMove wC3 inp0 eC3 10 1 0) 1 0).2.1.velY = 0
    rw [hcd]
    show wC3.velY - 0 * 2.5 = 0
    norm_num [wC3, baseWorld]
  · rw [hpath, htck, hkb, hdk, steerAttack_eq, hdist, htx, hty]
    show (swingStep
        (dispatchStep wC3 inp0 (steerMove wC3 inp0 eC3 10 1 0) 10 1 0).2.1
        (dispatchStep wC3 inp0 (steerMove wC3 inp0 eC3 10 1 0) 10 1 0).1).2.1.hp = 8
    rw [hdsp]
    show (swingStep (doContactDamage wC3 (steerMove wC3 inp0 eC3 10 1 0) 1 0).2.1
        (doContactDamage wC3 (steerMove wC3 inp0 eC3 10 1 0) 1 0).1).2.1.hp = 8
    rw [hswing]
    show (doContactDamage wC3 (steerMove wC3 inp0 eC3 10 1 0) 1 0).2.1.hp = 8
    rw [hcd]
    show wC3.hp - (steerMove wC3 inp0 eC3 10 1 0).damage = 8
    rw [hdamage]
    show (10:ℤ) - 2 = 8
    norm_num

/-- Witness for the cooldown claim: the concrete contact dispatch sets the
60-tick window. -/
theorem cooldown_respected_witness :
    eC3.dead = false ∧
    Event.dispatch Style.contact ∈ (updateEnemy wC3 inp0 eC3).events ∧
    (updateEnemy wC3 inp0 eC3).enemy.attackCooldown = cooldownTicks Style.contact := by
  have hd : Event.dispatch Style.contact ∈ (updateEnemy wC3 inp0 eC3).events := by
    rw [contact_eval.1]
    simp
  exact ⟨rfl, hd,
    (cooldown_respected wC3 inp0 eC3 Style.contact [] rfl hd
      (by norm_num [cooldownTicks])).1⟩

/-- Counterexample to the claim that the CONTACT recoil pushes the agent: in
the concrete dispatch the agent velocity is unchanged while the player
velocity receives the impulse, with the sign pulling the player toward the
agent. -/
theorem contact_recoil_counterexample :
    eC3.id ∈ wC3.tokens ∧ eC3.attackCooldown = 0 ∧
    eC3.attackStyle = Style.contact ∧ playerDist wC3 eC3 = 10 ∧
    Event.dispatch Style.contact ∈ (updateEnemy wC3 inp0 eC3).events ∧
    (updateEnemy wC3 inp0 eC3).world.hp = wC3.hp - eC3.damage ∧
    (updateEnemy wC3 inp0 eC3).enemy.vx = eC3.vx ∧
    (updateEnemy wC3 inp0 eC3).enemy.vy = eC3.vy ∧
    (updateEnemy wC3 inp0 eC3).world.velX = wC3.velX - 2.5 ∧
    (updateEnemy wC3 inp0 eC3).world.velY = wC3.velY := by
  obtain ⟨hev, hvx, hvy, hvelx, hvely, hhp⟩ := contact_eval
  have hdist : playerDist wC3 eC3 = 10 := by
    simp only [playerDist, wC3, eC3, baseWorld, baseEnemy]
    rw [show ((10:ℝ) - 0) * ((10:ℝ) - 0) + ((0:ℝ) - 0) * ((0:ℝ) - 0) = 10 ^ 2 by norm_num,
      Real.sqrt_sq (by norm_num : (0:ℝ) ≤ 10)]
  refine ⟨by simp [wC3, eC3, baseWorld, baseEnemy], rfl, rfl, hdist, ?_, ?_, ?_, ?_, ?_, ?_⟩
  · rw [hev]
    simp
  · rw [hhp]
    rfl
  · rw [hvx]
    rfl
  · rw [hvy]
    rfl
  · rw [hvelx]
    norm_num [wC3, baseWorld]
  · rw [hvely]
    rfl

/-- C3 amended: the contact dispatch applies the damage immediately, but the
recoil impulse of magnitude 2.5 along the reversed agent-to-player direction
is added to the PLAYER velocity (pulling the player toward the agent); the
agent velocity fields are untouched and its cooldown becomes 60. -/
theorem contact_attack_amended (w : World) (inp : Input) (e : Enemy)
    (dist toPx toPy : ℝ)
    (htok : e.id ∈ w.tokens) (hcd : e.attackCooldown ≤ 0)
    (hst : e.attackStyle = Style.contact) (hrange : dist < 18) :
    Event.dispatch Style.contact ∈ (dispatchStep w inp e dist toPx toPy).2.2 ∧
    Event.damagePlayer e.damage ∈ (dispatchStep w inp e dist toPx toPy).2.2 ∧
    (dispatchStep w inp e dist toPx toPy).2.1.hp = w.hp - e.damage ∧
    (dispatchStep w inp e dist toPx toPy).1.vx = e.vx ∧
    (dispatchStep w inp e dist toPx toPy).1.vy = e.vy ∧
    (dispatchStep w inp e dist toPx toPy).1.attackCooldown = 60 ∧
    (0 < toPx * toPx + toPy * toPy →
      (dispatchStep w inp e dist toPx toPy).2.1.velX = w.velX - toPx * 2.5 ∧
      (dispatchStep w inp e dist toPx toPy).2.1.velY = w.velY - toPy * 2.5) := by
  have hds : dispatchStep w inp e dist toPx toPy
      = ((doContactDamage w e toPx toPy).1, (doContactDamage w e toPx toPy).2.1,
          Event.dispatch Style.contact :: (doContactDamage w e toPx toPy).2.2) := by
    unfold dispatchStep
    rw [if_pos ⟨htok, hcd⟩, if_neg (by simp [hst]), if_neg (by simp [hst]),
      if_neg (by simp [hst]), if_pos ⟨hst, hrange⟩]
  have h1 : (doContactDamage w e toPx toPy).1 = { e with attackCooldown := 60 } := rfl
  have h3 : (doContactDamage w e toPx toPy).2.2 = [Event.damagePlayer e.damage] := by
    simp only [doContactDamage, applyDamageToPlayer]
  have hhp : (doContactDamage w e toPx toPy).2.1.hp = w.hp - e.damage := by
    simp only [doContactDamage, applyDamageToPlayer]
    split_ifs <;> rfl
  refine ⟨?_, ?_, hds ▸ hhp, ?_, ?_, ?_, ?_⟩
  · rw [hds]
    simp
  · rw [hds, h3]
    simp
  · rw [hds, h1]
  · rw [hds, h1]
  · rw [hds, h1]
  · intro hpos
    have hguard : 0 < Real.sqrt (toPx * toPx + toPy * toPy) := Real.sqrt_pos.mpr hpos
    rw [hds]
    constructor
    · show (doContactDamage w e toPx toPy).2.1.velX = w.velX - toPx * 2.5
      simp only [doContactDamage, applyDamageToPlayer]
      rw [if_pos hguard]
      split_ifs <;> rfl
    · show (doContactDamage w e toPx toPy).2.1.velY = w.velY - toPy * 2.5
      simp only [doContactDamage, applyDamageToPlayer]
      rw [if_pos hguard]
      split_ifs <;> rfl

/-- Witness for the amended contact claim at the concrete dispatch. -/
theorem contact_attack_amended_witness :
    (eC3.id ∈ wC3.tokens ∧ eC3.attackCooldown ≤ 0 ∧
      eC3.attackStyle = Style.contact ∧ (10:ℝ) < 18 ∧ (0:ℝ) < 1 * 1 + 0 * 0) ∧
    (dispatchStep wC3 inp0 eC3 10 1 0).2.1.velX = wC3.velX - 1 * 2.5 ∧
    (dispatchStep wC3 inp0 eC3 10 1 0).1.vx = eC3.vx := by
  have htok : eC3.id ∈ wC3.tokens := by simp [wC3, eC3, baseWorld, baseEnemy]
  have hcd : eC3.attackCooldown ≤ 0 := le_refl 0
  have h := contact_attack_amended wC3 inp0 eC3 10 1 0 htok hcd rfl (by norm_num)
  exact ⟨⟨htok, hcd, rfl, by norm_num, by norm_num⟩,
    (h.2.2.2.2.2.2 (by norm_num)).1, h.2.2.2.1⟩

/-- Unfolding equation of the coordinator. -/
lemma coord_eq (w : World) :
    updateEnemyCoordination w =
      { w with
        enemies := w.enemies.map (fun e =>
          if e.dead then e
          else { e with
                  distToPlayer := Real.sqrt ((e.x - w.playerX) * (e.x - w.playerX)
                    + (e.y - w.playerY) * (e.y - w.playerY)) }),
        tokens := ((((w.enemies.map (fun e =>
            if e.dead then e
            else { e with
                    distToPlayer := Real.sqrt ((e.x - w.playerX) * (e.x - w.playerX)
                      + (e.y - w.playerY) * (e.y - w.playerY)) })).filter
              (fun e => !e.dead && decide (e.distToPlayer < 320))).insertionSort
                byDist).take (min 2 ⌈w.difficulty⌉).toNat).map (fun e => e.id) } := rfl

/-- Every live member of the distance-cached collection carries the euclidean
distance to the player in its cache field. -/
lemma withDist_dist (w : World) :
    ∀ b ∈ w.enemies.map (fun e =>
        if e.dead then e
        else { e with
                distToPlayer := Real.sqrt ((e.x - w.playerX) * (e.x - w.playerX)
                  + (e.y - w.playerY) * (e.y - w.playerY)) }),
      b.dead = false →
      b.distToPlayer = Real.sqrt ((b.x - w.playerX) * (b.x - w.playerX)
        + (b.y - w.playerY) * (b.y - w.playerY)) := by
  intro b hb hbd
  obtain ⟨y, hy, rfl⟩ := List.mem_map.mp hb
  by_cases hyd : y.dead
  · rw [if_pos hyd] at hbd ⊢
    rw [hbd] at hyd
    cases hyd
  · rw [if_neg hyd]

/-- The cached collection carries the original ids. -/
lemma withDist_ids (w : World) :
    (w.enemies.map (fun e =>
        if e.dead then e
        else { e with
                distToPlayer := Real.sqrt ((e.x - w.playerX) * (e.x - w.playerX)
                  + (e.y - w.playerY) * (e.y - w.playerY)) })).map (fun e => e.id)
      = w.enemies.map (fun e => e.id) := by
  rw [List.map_map]
  refine List.map_congr_left ?_
  intro y hy
  by_cases hyd : y.dead <;> simp [hyd]

/-- C1: after the coordinator recomputes the token set, it holds at most
min(2, ceil(difficulty)) ids, every token id belongs to a live agent closer
than 320 units to the player, and token holders are the closest such agents:
any live in-range agent without a token is at least as far as every token
holder. -/
theorem token_cap (w : World)
    (hnd : (w.enemies.map (fun e => e.id)).Nodup) :
    (updateEnemyCoordination w).tokens.length ≤ (min 2 ⌈w.difficulty⌉).toNat ∧
    (∀ tid ∈ (updateEnemyCoordination w).tokens,
      ∃ b ∈ (updateEnemyCoordination w).enemies, b.id = tid ∧ b.dead = false ∧
        Real.sqrt ((b.x - w.playerX) * (b.x - w.playerX)
          + (b.y - w.playerY) * (b.y - w.playerY)) < 320) ∧
    (∀ a ∈ (updateEnemyCoordination w).enemies, a.dead = false →
      Real.sqrt ((a.x - w.playerX) * (a.x - w.playerX)
        + (a.y - w.playerY) * (a.y - w.playerY)) < 320 →
      a.id ∉ (updateEnemyCoordination w).tokens →
      ∀ b ∈ (updateEnemyCoordination w).enemies,
        b.id ∈ (updateEnemyCoordination w).tokens →
        Real.sqrt ((b.x - w.playerX) * (b.x - w.playerX)
          + (b.y - w.playerY) * (b.y - w.playerY))
          ≤ Real.sqrt ((a.x - w.playerX) * (a.x - w.playerX)
              + (a.y - w.playerY) * (a.y - w.playerY))) := by
  rw [coord_eq]
  simp only []
  set F : Enemy → Enemy := fun e =>
    if e.dead then e
    else { e with
            distToPlayer := Real.sqrt ((e.x - w.playerX) * (e.x - w.playerX)
              + (e.y - w.playerY) * (e.y - w.playerY)) } with hF
  set WD : List Enemy := w.enemies.map F with hWD
  set AL : List Enemy := WD.filter (fun e => !e.dead && decide (e.distToPlayer < 320))
    with hAL
  set SRT : List Enemy := AL.insertionSort byDist with hSRT
  set n : ℕ := (min 2 ⌈w.difficulty⌉).toNat with hn
  have hsortmem : ∀ x : Enemy, x ∈ SRT ↔ x ∈ AL := by
    intro x
    rw [hSRT]
    exact List.mem_insertionSort byDist
  have halmem : ∀ x : Enemy, x ∈ AL ↔ x ∈ WD ∧ x.dead = false ∧ x.distToPlayer < 320 := by
    intro x
    rw [hAL]
    simp [List.mem_filter]
  have hchain : ∀ x : Enemy, x ∈ SRT.take n → x ∈ WD ∧ x.dead = false ∧
      Real.sqrt ((x.x - w.playerX) * (x.x - w.playerX)
        + (x.y - w.playerY) * (x.y - w.playerY)) < 320 := by
    intro x hx
    have h1 := (halmem x).mp ((hsortmem x).mp (List.mem_of_mem_take hx))
    refine ⟨h1.1, h1.2.1, ?_⟩
    rw [← withDist_dist w x (hWD ▸ h1.1) h1.2.1]
    exact h1.2.2
  refine ⟨?_, ?_, ?_⟩
  · rw [List.length_map, List.length_take]
    exact min_le_left _ _
  · intro tid htid
    obtain ⟨b, hb, rfl⟩ := List.mem_map.mp htid
    obtain ⟨hbWD, hbd, hbr⟩ := hchain b hb
    exact ⟨b, hbWD, rfl, hbd, hbr⟩
  · intro a haWD had har hatok b hbWD hbtok
    have hndWD : (WD.map (fun e => e.id)).Nodup := by
      rw [hWD, withDist_ids w]
      exact hnd
    obtain ⟨b', hb', hbid⟩ := List.mem_map.mp hbtok
    obtain ⟨hbWD', hbd', hbr'⟩ := hchain b' hb'
    have hbeq : b' = b := List.inj_on_of_nodup_map hndWD hbWD' hbWD hbid
    have haAL : a ∈ AL := by
      rw [halmem]
      refine ⟨haWD, had, ?_⟩
      rw [withDist_dist w a (hWD ▸ haWD) had]
      exact har
    have haSRT : a ∈ SRT := (hsortmem a).mpr haAL
    have hadrop : a ∈ SRT.drop n := by
      rcases (List.mem_append).mp
          (by rw [List.take_append_drop n SRT]; exact haSRT) with h | h
      · exact absurd (List.mem_map_of_mem (fun e => e.id) h) hatok
      · exact h
    have hrel : byDist b' a := by
      have hs : List.Sorted byDist SRT := by
        rw [hSRT]
        exact List.sorted_insertionSort byDist AL
      exact hs.rel_of_mem_take_of_mem_drop hb' hadrop
    have hda : a.distToPlayer = Real.sqrt ((a.x - w.playerX) * (a.x - w.playerX)
        + (a.y - w.playerY) * (a.y - w.playerY)) :=
      withDist_dist w a (hWD ▸ haWD) had
    have hdb : b.distToPlayer = Real.sqrt ((b.x - w.playerX) * (b.x - w.playerX)
        + (b.y - w.playerY) * (b.y - w.playerY)) :=
      withDist_dist w b (hWD ▸ hbWD) (hbeq ▸ hbd')
    rw [← hda, ← hdb]
    rw [hbeq] at hrel
    exact hrel

/-- Witness for the token coordination claim with one live in-range agent. -/
theorem token_cap_witness :
    (wC1.enemies.map (fun e => e.id)).Nodup ∧
    (updateEnemyCoordination wC1).tokens.length ≤ (min 2 ⌈wC1.difficulty⌉).toNat := by
  have hnd : (wC1.enemies.map (fun e => e.id)).Nodup := by
    simp [wC1, baseWorld, baseEnemy]
  exact ⟨hnd, (token_cap wC1 hnd).1⟩

/-- Unfolding equation for the update pass over the empty suffix. -/
lemma pass_nil (inp : Input) (w : World) (pre : List Enemy) :
    updateEnemiesPass inp w pre [] = (w, []) := rfl

/-- Unfolding equation for the update pass: the suffix is processed first
(reverse iteration), then the head is updated against the current array
unless the pass aborted because the dungeon was left. -/
lemma pass_cons (inp : Input) (w : World) (pre : List Enemy) (e : Enemy)
    (rest : List Enemy) :
    updateEnemiesPass inp w pre (e :: rest) =
      if (updateEnemiesPass inp w (pre ++ [e]) rest).1.inDungeon = false then
        ((updateEnemiesPass inp w (pre ++ [e]) rest).1,
          e :: (updateEnemiesPass inp w (pre ++ [e]) rest).2)
      else
        ((updateEnemy { (updateEnemiesPass inp w (pre ++ [e]) rest).1 with
            enemies := pre ++ e :: (updateEnemiesPass inp w (pre ++ [e]) rest).2 }
            inp e).world,
          if (updateEnemy { (updateEnemiesPass inp w (pre ++ [e]) rest).1 with
              enemies := pre ++ e :: (updateEnemiesPass inp w (pre ++ [e]) rest).2 }
              inp e).remove
          then (updateEnemiesPass inp w (pre ++ [e]) rest).2
          else (updateEnemy { (updateEnemiesPass inp w (pre ++ [e]) rest).1 with
              enemies := pre ++ e :: (updateEnemiesPass inp w (pre ++ [e]) rest).2 }
              inp e).enemy
            :: (updateEnemiesPass inp w (pre ++ [e]) rest).2) := rfl

/-- An agent kept by its update is not an expired corpse: if it is dead its
death timer is still positive. -/
lemma updateEnemy_keep (w : World) (inp : Input) (e : Enemy)
    (hrm : (updateEnemy w inp e).remove = false) :
    (updateEnemy w inp e).enemy.dead = true → 0 < (updateEnemy w inp e).enemy.deathTimer := by
  intro hd
  by_cases hdd : e.dead
  · rw [updateEnemy_dead w inp e hdd] at hrm ⊢
    simp at hrm ⊢
    omega
  · have h := updateEnemy_dead_eq w inp e
    rw [hd] at h
    exact absurd h.symm (by simpa using hdd)

/-- After a completed pass (no abort), the surviving collection holds no dead
agent whose death timer has expired. -/
lemma pass_no_expired (inp : Input) : ∀ (rest : List Enemy) (w : World) (pre : List Enemy),
    (updateEnemiesPass inp w pre rest).1.inDungeon = true →
    ∀ x ∈ (updateEnemiesPass inp w pre rest).2, x.dead = true → 0 < x.deathTimer := by
  intro rest
  induction rest with
  | nil =>
    intro w pre h x hx
    rw [pass_nil] at hx
    simp at hx
  | cons e rest ih =>
    intro w pre h x hx
    rw [pass_cons] at h hx
    by_cases hab : (updateEnemiesPass inp w (pre ++ [e]) rest).1.inDungeon = false
    · rw [if_pos hab] at h
      rw [hab] at h
      cases h
    · rw [if_neg hab] at h hx
      have hpr : (updateEnemiesPass inp w (pre ++ [e]) rest).1.inDungeon = true := by
        simpa using hab
      by_cases hrm : (updateEnemy { (updateEnemiesPass inp w (pre ++ [e]) rest).1 with
          enemies := pre ++ e :: (updateEnemiesPass inp w (pre ++ [e]) rest).2 }
          inp e).remove
      · rw [if_pos hrm] at hx
        exact ih w (pre ++ [e]) hpr x hx
      · rw [if_neg hrm] at hx
        rcases List.mem_cons.mp hx with hx | hx
        · intro hxd
          subst hx
          exact updateEnemy_keep _ inp e (by simpa using hrm) hxd
        · exact ih w (pre ++ [e]) hpr x hx

/-- C6: a dead agent whose death timer has reached zero or below is removed
during the update pass of that tick, so whenever the pass completes (the
simulation is still in the dungeon) it is absent from the live collection
used on the next tick. -/
theorem death_cleanup (inp : Input) (w : World) (e : Enemy)
    (he : e ∈ w.enemies) (hd : e.dead = true) (ht : e.deathTimer ≤ 0)
    (hin : (updateEnemiesTick inp w).1.inDungeon = true) :
    e ∉ (updateEnemiesTick inp w).2 := by
  intro hmem
  have ht2 : updateEnemiesTick inp w
      = updateEnemiesPass inp (updateEnemyCoordination w) []
          (updateEnemyCoordination w).enemies := rfl
  rw [ht2] at hin hmem
  have h := pass_no_expired inp (updateEnemyCoordination w).enemies
    (updateEnemyCoordination w) [] hin e hmem hd
  omega

/-- Witness for death cleanup: the expired corpse is removed and the pass
completes. -/
theorem death_cleanup_witness :
    (eC6 ∈ wC6.enemies ∧ eC6.dead = true ∧ eC6.deathTimer ≤ 0 ∧
      (updateEnemiesTick inp0 wC6).1.inDungeon = true) ∧
    eC6 ∉ (updateEnemiesTick inp0 wC6).2 := by
  have hin : (updateEnemiesTick inp0 wC6).1.inDungeon = true := rfl
  have he : eC6 ∈ wC6.enemies := by simp [wC6]
  exact ⟨⟨he, rfl, le_refl 0, hin⟩,
    death_cleanup inp0 wC6 eC6 he rfl (le_refl 0) hin⟩

lemma pickBest_step_ge (scores : Fin 16 → ℝ) :
    ∀ (l : List (Fin 16)) (b : Option (Fin 16) × ℝ),
      b.2 ≤ (l.foldl (pickStep scores) b).2 := by
  intro l
  induction l with
  | nil => intro b; exact le_refl _
  | cons i l ih =>
    intro b
    rw [List.foldl_cons]
    refine le_trans ?_ (ih _)
    unfold pickStep
    by_cases h : b.2 < scores i
    · rw [if_pos h]
      exact le_of_lt h
    · rw [if_neg h]

lemma pickBest_mem_ge (scores : Fin 16 → ℝ) :
    ∀ (l : List (Fin 16)) (b : Option (Fin 16) × ℝ) (i : Fin 16), i ∈ l →
      scores i ≤ (l.foldl (pickStep scores) b).2 := by
  intro l
  induction l with
  | nil => intro b i hi; cases hi
  | cons j l ih =>
    intro b i hi
    rw [List.foldl_cons]
    rcases List.mem_cons.mp hi with rfl | hi
    · refine le_trans ?_ (pickBest_step_ge scores l _)
      unfold pickStep
      by_cases h : b.2 < scores i
      · rw [if_pos h]
      · rw [if_neg h]
        exact le_of_not_lt h
    · exact ih _ i hi

lemma pickBest_ge (scores : Fin 16 → ℝ) (i : Fin 16) :
    scores i ≤ (pickBest scores).2 :=
  pickBest_mem_ge scores (List.finRange 16) (none, -1) i (List.mem_finRange i)

lemma pickBest_inv (scores : Fin 16 → ℝ) :
    ∀ (l : List (Fin 16)) (b : Option (Fin 16) × ℝ),
      ((b.1 = none → b.2 = -1) ∧ (∀ j, b.1 = some j → b.2 = scores j)) →
      (((l.foldl (pickStep scores) b).1 = none →
          (l.foldl (pickStep scores) b).2 = -1) ∧
        (∀ j, (l.foldl (pickStep scores) b).1 = some j →
          (l.foldl (pickStep scores) b).2 = scores j)) := by
  intro l
  induction l with
  | nil => intro b hb; exact hb
  | cons i l ih =>
    intro b hb
    rw [List.foldl_cons]
    refine ih _ ?_
    unfold pickStep
    by_cases h : b.2 < scores i
    · rw [if_pos h]
      constructor
      · intro hc
        exact absurd hc (by simp)
      · intro j hj
        injection hj with hj
        rw [hj]
    · rw [if_neg h]
      exact hb

lemma pickBest_some (scores : Fin 16 → ℝ)
    (h : -1 < (pickBest scores).2) :
    ∃ j, (pickBest scores).1 = some j ∧ (pickBest scores).2 = scores j := by
  have hinv : ((pickBest scores).1 = none → (pickBest scores).2 = -1) ∧
      (∀ j, (pickBest scores).1 = some j → (pickBest scores).2 = scores j) :=
    pickBest_inv scores (List.finRange 16) (none, -1)
      ⟨fun _ => rfl, fun j hj => nomatch hj⟩
  rcases hc : (pickBest scores).1 with _ | j
  · exact absurd (hinv.1 hc) (by intro hh; rw [hh] at h; exact lt_irrefl _ h)
  · exact ⟨j, rfl, hinv.2 j hc⟩

lemma steerMove_moves (w : World) (inp : Input) (e : Enemy) (dist toPx toPy : ℝ)
    (hscore : 0.01 < (pickBest (finalScores w inp e dist toPx toPy)).2)
    (hfree : ∀ c r, w.isSolid c r = false) :
    ∃ j : Fin 16,
      (steerMove w inp e dist toPx toPy).x
          = e.x + (dirVec j).1 * (0.45 + (w.difficulty - 1) * 0.075)
            * (if dist < 320 then (if e.id ∈ w.tokens then (1.0:ℝ) else 0.75) else 0.5) ∧
      (steerMove w inp e dist toPx toPy).y
          = e.y + (dirVec j).2 * (0.45 + (w.difficulty - 1) * 0.075)
            * (if dist < 320 then (if e.id ∈ w.tokens then (1.0:ℝ) else 0.75) else 0.5) := by
  obtain ⟨j, hj1, hj2⟩ := pickBest_some (finalScores w inp e dist toPx toPy)
    (lt_trans (by norm_num) hscore)
  refine ⟨j, ?_, ?_⟩
  · simp only [steerMove, hj1]
    rw [if_pos hscore, if_pos (hfree _ _)]
  · simp only [steerMove, hj1]
    rw [if_pos hscore, if_pos (hfree _ _)]

lemma steerAttack_xy (w : World) (inp : Input) (e : Enemy) :
    (steerAttack w inp e).enemy.x
        = (steerMove w inp e (playerDist w e) (toPlayerX w e) (toPlayerY w e)).x ∧
    (steerAttack w inp e).enemy.y
        = (steerMove w inp e (playerDist w e) (toPlayerX w e) (toPlayerY w e)).y := by
  set dist := playerDist w e
  set tx := toPlayerX w e
  set ty0 := toPlayerY w e
  set em := steerMove w inp e dist tx ty0 with hem
  set D := dispatchStep w inp em dist tx ty0 with hD
  obtain ⟨hsx, hsy, -⟩ := swingStep_shape D.2.1 D.1
  obtain ⟨hdx, hdy, -⟩ := dispatchStep_shape w inp em dist tx ty0
  exact ⟨hsx.trans hdx, hsy.trans hdy⟩

theorem hitstun_steering_counterexample :
    0 < eC2.hitFlash ∧ eC2.vx = 0 ∧ eC2.vy = 0 ∧
    ¬((updateEnemy wC2 inp0 eC2).enemy.x = eC2.x ∧
      (updateEnemy wC2 inp0 eC2).enemy.y = eC2.y) := by
  have hstun : ¬(0 < (tickCounters eC2).hitFlash
      ∨ 1.5 < Real.sqrt (eC2.vx * eC2.vx + eC2.vy * eC2.vy)) := by
    norm_num [tickCounters, Real.sqrt_zero, eC2, baseEnemy]
  have hpath := updateEnemy_steer wC2 inp0 eC2 rfl hstun rfl
  have htck : tickCounters eC2 = baseEnemy := by
    simp [tickCounters, eC2, baseEnemy]
  have hkb : knockbackStep wC2 baseEnemy = baseEnemy := by
    simp only [knockbackStep]
    rw [if_neg]
    norm_num [Real.sqrt_zero, baseEnemy]
  have hdk : decayVel baseEnemy = baseEnemy := by
    simp [decayVel, baseEnemy]
  have hdist : playerDist wC2 baseEnemy = 100 := by
    simp only [playerDist, wC2, baseWorld, baseEnemy]
    rw [show ((100:ℝ) - 0) * ((100:ℝ) - 0) + ((0:ℝ) - 0) * ((0:ℝ) - 0) = 100 ^ 2 by norm_num,
      Real.sqrt_sq (by norm_num : (0:ℝ) ≤ 100)]
  have htx : toPlayerX wC2 baseEnemy = 1 := by
    simp only [toPlayerX, hdist]
    rw [if_pos (by norm_num)]
    simp [wC2, baseWorld, baseEnemy]
  have hty : toPlayerY wC2 baseEnemy = 0 := by
    simp only [toPlayerY, hdist]
    rw [if_pos (by norm_num)]
    simp [wC2, baseWorld, baseEnemy]
  have hdang : ∀ i, danger wC2 baseEnemy i = 0 := by
    intro i
    simp [danger, wC2, baseWorld]
  have hint : interest wC2 inp0 baseEnemy 100 1 0 0 = 0.36125 := by
    have hdv0 : dirVec 0 = (1, 0) := by simp [dirVec]
    simp only [interest, hdv0]
    norm_num [wC2, baseWorld, eC2, baseEnemy, inp0, Real.sin_zero]
  have hfs : finalScores wC2 inp0 baseEnemy 100 1 0 0 = 0.36125 := by
    unfold finalScores
    rw [hdang 0]
    have hred : redistribute (interest wC2 inp0 baseEnemy 100 1 0)
        (danger wC2 baseEnemy) 0 = interest wC2 inp0 baseEnemy 100 1 0 0 := by
      unfold redistribute
      have hz : ∀ i : Fin 16, ∀ o ∈ Finset.range 3,
          (if 0.5 ≤ danger wC2 baseEnemy i
              ∧ 0.01 ≤ interest wC2 inp0 baseEnemy 100 1 0 i * danger wC2 baseEnemy i then
            (let weight : ℝ := if o = 0 then 0.5 else if o = 1 then 0.3 else 0.15
            (if i - ((o + 1 : ℕ) : Fin 16) = 0 ∧ danger wC2 baseEnemy 0 < 0.5
              then interest wC2 inp0 baseEnemy 100 1 0 i * danger wC2 baseEnemy i * weight
              else 0)
              + (if i + ((o + 1 : ℕ) : Fin 16) = 0 ∧ danger wC2 baseEnemy 0 < 0.5
                  then interest wC2 inp0 baseEnemy 100 1 0 i * danger wC2 baseEnemy i * weight
                  else 0))
          else 0) = 0 := by
        intro i o ho
        rw [if_neg]
        rw [hdang i]
        norm_num
      rw [Finset.sum_congr rfl (fun i _ => Finset.sum_congr rfl (fun o ho => hz i o ho))]
      simp
    rw [hred, hint]
    norm_num
  have hscore : 0.01 < (pickBest (finalScores wC2 inp0 baseEnemy 100 1 0)).2 :=
    lt_of_lt_of_le (by rw [hfs]; norm_num) (pickBest_ge (finalScores wC2 inp0 baseEnemy 100 1 0) 0)
  obtain ⟨j, hx, hy⟩ := steerMove_moves wC2 inp0 baseEnemy 100 1 0 hscore (fun c r => rfl)
  have hsp : (0.45 + (wC2.difficulty - 1) * 0.075)
      * (if (100:ℝ) < 320 then (if baseEnemy.id ∈ wC2.tokens then (1.0:ℝ) else 0.75) else 0.5)
      = 0.45 := by
    rw [if_pos (by norm_num), if_pos (by simp [wC2, baseWorld, baseEnemy])]
    norm_num [wC2, baseWorld]
  rw [mul_assoc, hsp] at hx hy
  have hxx : (updateEnemy wC2 inp0 eC2).enemy.x = (dirVec j).1 * 0.45 := by
    rw [hpath, htck, hkb, hdk, (steerAttack_xy wC2 inp0 baseEnemy).1, hdist, htx, hty, hx]
    norm_num [baseEnemy]
  have hyy : (updateEnemy wC2 inp0 eC2).enemy.y = (dirVec j).2 * 0.45 := by
    rw [hpath, htck, hkb, hdk, (steerAttack_xy wC2 inp0 baseEnemy).2, hdist, htx, hty, hy]
    norm_num [baseEnemy]
  refine ⟨by norm_num [eC2, baseEnemy], rfl, rfl, ?_⟩
  rintro ⟨h1, h2⟩
  rw [hxx] at h1
  rw [hyy] at h2
  have hc1 : (dirVec j).1 = 0 := by
    have : ((0.45:ℝ)) ≠ 0 := by norm_num
    have he2x : eC2.x = 0 := rfl
    rw [he2x] at h1
    rcases mul_eq_zero.mp h1 with h | h
    · exact h
    · exact absurd h this
  have hc2 : (dirVec j).2 = 0 := by
    have : ((0.45:ℝ)) ≠ 0 := by norm_num
    have he2y : eC2.y = 0 := rfl
    rw [he2y] at h2
    rcases mul_eq_zero.mp h2 with h | h
    · exact h
    · exact absurd h this
  have hunit : (dirVec j).1 ^ 2 + (dirVec j).2 ^ 2 = 1 := by
    simp only [dirVec]
    exact Real.cos_sq_add_sin_sq _
  rw [hc1, hc2] at hunit
  norm_num at hunit

/-- C2 amended: when the hit flash is still positive AFTER the per-tick
decrement (that is, it was at least 2 at tick start), the update returns
before the steering section: the position can only change by the knockback
displacement and nothing is dispatched. -/
theorem hitstun_no_steering_amended (w : World) (inp : Input) (e : Enemy)
    (hdead : e.dead = false) (hf : 2 ≤ e.hitFlash) :
    (((updateEnemy w inp e).enemy.x = e.x ∧ (updateEnemy w inp e).enemy.y = e.y) ∨
      ((updateEnemy w inp e).enemy.x = e.x + e.vx ∧
        (updateEnemy w inp e).enemy.y = e.y + e.vy)) ∧
    (updateEnemy w inp e).events = [] := by
  have hcond : 0 < (tickCounters e).hitFlash
      ∨ 1.5 < Real.sqrt (e.vx * e.vx + e.vy * e.vy) := by
    left
    simp only [tickCounters]
    rw [if_pos (by omega : (0:ℤ) < e.hitFlash)]
    omega
  rw [updateEnemy_stun w inp e hdead hcond]
  obtain ⟨-, -, -, -, -, -, -, -, -, -, -, -, -, -, -, -, -, -, hpos⟩ :=
    afterKb_proj w e
  refine ⟨?_, rfl⟩
  rcases hpos with ⟨h1, h2⟩ | ⟨⟨h1, h2⟩, -⟩
  · exact Or.inl ⟨h1, h2⟩
  · exact Or.inr ⟨h1, h2⟩

/-- Witness for the amended hit-stun claim at hit flash 2. -/
theorem hitstun_no_steering_amended_witness :
    ({ baseEnemy with hitFlash := 2 } : Enemy).dead = false ∧
    (2:ℤ) ≤ ({ baseEnemy with hitFlash := 2 } : Enemy).hitFlash ∧
    (updateEnemy baseWorld inp0 { baseEnemy with hitFlash := 2 }).events = [] :=
  ⟨rfl, le_refl 2,
    (hitstun_no_steering_amended baseWorld inp0 { baseEnemy with hitFlash := 2 }
      rfl (le_refl 2)).2⟩

/-- Characterization of an active swing tick: timer down by one, blade angle
advanced, swing ends exactly when the timer runs out, and the damage event
fires exactly when the decremented timer equals 10 and the blade tip is
within 16 units of the player. -/
lemma swingStep_active (w : World) (e : Enemy) (hsw : e.swordSwinging = true) :
    (swingStep w e).1.swordSwingTimer = e.swordSwingTimer - 1 ∧
    (swingStep w e).1.swordAngle
      = e.swordAngle + e.swordSwingDir * (Real.pi / 15) ∧
    (swingStep w e).1.swordSwinging
      = (if e.swordSwingTimer - 1 ≤ 0 then false else true) ∧
    (swingStep w e).2.2
      = (if e.swordSwingTimer - 1 = 10 ∧
            Real.sqrt ((w.playerX - (e.x
                + Real.cos (e.swordAngle + e.swordSwingDir * (Real.pi / 15))
                  * swordLengthOf e))
              * (w.playerX - (e.x
                + Real.cos (e.swordAngle + e.swordSwingDir * (Real.pi / 15))
                  * swordLengthOf e))
              + (w.playerY - (e.y
                + Real.sin (e.swordAngle + e.swordSwingDir * (Real.pi / 15))
                  * swordLengthOf e))
              * (w.playerY - (e.y
                + Real.sin (e.swordAngle + e.swordSwingDir * (Real.pi / 15))
                  * swordLengthOf e))) < 16
          then [Event.damagePlayer e.damage] else []) := by
  simp only [swingStep, applyDamageToPlayer, hsw]
  split_ifs <;> simp_all

/-- The effective sword length depends only on the behaviour profile. -/
lemma swordLengthOf_congr (e1 e2 : Enemy) (h : e1.ty = e2.ty) :
    swordLengthOf e1 = swordLengthOf e2 := by
  unfold swordLengthOf
  rw [h]

/-- Dispatch and swing after the steering move, for an agent mid-swing with a
positive cooldown: the dispatch is a no-op and the swing advances with its
single mid-swing damage check. -/
lemma postSteer_swing (w : World) (inp : Input) (em : Enemy) (d tx ty0 : ℝ)
    (hsw : em.swordSwinging = true) (hcd : 0 < em.attackCooldown) :
    (swingStep (dispatchStep w inp em d tx ty0).2.1
        (dispatchStep w inp em d tx ty0).1).1.swordSwingTimer
      = em.swordSwingTimer - 1 ∧
    (swingStep (dispatchStep w inp em d tx ty0).2.1
        (dispatchStep w inp em d tx ty0).1).1.swordAngle
      = em.swordAngle + em.swordSwingDir * (Real.pi / 15) ∧
    (swingStep (dispatchStep w inp em d tx ty0).2.1
        (dispatchStep w inp em d tx ty0).1).1.swordSwinging
      = (if em.swordSwingTimer - 1 ≤ 0 then false else true) ∧
    (swingStep (dispatchStep w inp em d tx ty0).2.1
        (dispatchStep w inp em d tx ty0).1).1.x = em.x ∧
    (swingStep (dispatchStep w inp em d tx ty0).2.1
        (dispatchStep w inp em d tx ty0).1).1.y = em.y ∧
    (swingStep (dispatchStep w inp em d tx ty0).2.1
        (dispatchStep w inp em d tx ty0).1).1.dead = em.dead ∧
    (swingStep (dispatchStep w inp em d tx ty0).2.1
        (dispatchStep w inp em d tx ty0).1).1.attackStyle = em.attackStyle ∧
    (swingStep (dispatchStep w inp em d tx ty0).2.1
        (dispatchStep w inp em d tx ty0).1).1.attackCooldown = em.attackCooldown ∧
    (swingStep (dispatchStep w inp em d tx ty0).2.1
        (dispatchStep w inp em d tx ty0).1).1.hitFlash = em.hitFlash ∧
    (swingStep (dispatchStep w inp em d tx ty0).2.1
        (dispatchStep w inp em d tx ty0).1).1.vx = em.vx ∧
    (swingStep (dispatchStep w inp em d tx ty0).2.1
        (dispatchStep w inp em d tx ty0).1).1.vy = em.vy ∧
    (swingStep (dispatchStep w inp em d tx ty0).2.1
        (dispatchStep w inp em d tx ty0).1).1.dashing = em.dashing ∧
    (swingStep (dispatchStep w inp em d tx ty0).2.1
        (dispatchStep w inp em d tx ty0).1).1.damage = em.damage ∧
    (swingStep (dispatchStep w inp em d tx ty0).2.1
        (dispatchStep w inp em d tx ty0).1).1.ty = em.ty ∧
    ((dispatchStep w inp em d tx ty0).2.2
        ++ (swingStep (dispatchStep w inp em d tx ty0).2.1
            (dispatchStep w inp em d tx ty0).1).2.2
      = (if em.swordSwingTimer - 1 = 10 ∧
            Real.sqrt ((w.playerX - (em.x
                + Real.cos (em.swordAngle + em.swordSwingDir * (Real.pi / 15))
                  * swordLengthOf em))
              * (w.playerX - (em.x
                + Real.cos (em.swordAngle + em.swordSwingDir * (Real.pi / 15))
                  * swordLengthOf em))
              + (w.playerY - (em.y
                + Real.sin (em.swordAngle + em.swordSwingDir * (Real.pi / 15))
                  * swordLengthOf em))
              * (w.playerY - (em.y
                + Real.sin (em.swordAngle + em.swordSwingDir * (Real.pi / 15))
                  * swordLengthOf em))) < 16
          then [Event.damagePlayer em.damage] else [])) := by
  rw [dispatchStep_cooldown_pos w inp em d tx ty0 hcd]
  obtain ⟨hT, hA, hS, hE⟩ := swingStep_active w em hsw
  obtain ⟨hx, hy, hdd, -, -, -, -, -, -, -, hsty, -, hty, -⟩ := swingStep_shape w em
  obtain ⟨-, -, -, -, -, hfl, hcool, hdsh, -, -, -, -, -, -⟩ := swingStep_shape w em
  obtain ⟨-, -, -, hvx, hvy, -, -, -, -, -, -, -, -, -⟩ := swingStep_shape w em
  have hdmg : (swingStep w em).1.damage = em.damage := by
    simp only [swingStep, applyDamageToPlayer, hsw]
    split_ifs <;> rfl
  exact ⟨hT, hA, hS, hx, hy, hdd, hsty, hcool, hfl, hvx, hvy, hdsh, hdmg, hty, hE⟩

/-- One uninterrupted tick of an agent mid-swing: timers advance, nothing is
dispatched, and the damage event fires exactly when the decremented swing
timer equals 10 and the blade tip (computed from the post-move position and
the advanced blade angle) is within 16 units of the player. -/
lemma swing_tick (w : World) (inp : Input) (e : Enemy) (m : ℤ)
    (hdead : e.dead = false) (hstyle : e.attackStyle = Style.sword)
    (hsw : e.swordSwinging = true) (ht : e.swordSwingTimer = m)
    (hm : 1 ≤ m) (hcd : e.attackCooldown = m + 50)
    (hf : e.hitFlash = 0) (hvx : e.vx = 0) (hvy : e.vy = 0)
    (hdash : e.dashing = false) :
    (updateEnemy w inp e).enemy.dead = false ∧
    (updateEnemy w inp e).enemy.attackStyle = Style.sword ∧
    (updateEnemy w inp e).enemy.swordSwingTimer = m - 1 ∧
    (updateEnemy w inp e).enemy.swordSwinging
      = (if m - 1 ≤ 0 then false else true) ∧
    (updateEnemy w inp e).enemy.attackCooldown = (m - 1) + 50 ∧
    (updateEnemy w inp e).enemy.hitFlash = 0 ∧
    (updateEnemy w inp e).enemy.vx = 0 ∧
    (updateEnemy w inp e).enemy.vy = 0 ∧
    (updateEnemy w inp e).enemy.dashing = false ∧
    (updateEnemy w inp e).enemy.damage = e.damage ∧
    (updateEnemy w inp e).enemy.ty = e.ty ∧
    (updateEnemy w inp e).events
      = (if m - 1 = 10 ∧
            Real.sqrt ((w.playerX - ((updateEnemy w inp e).enemy.x
                + Real.cos ((updateEnemy w inp e).enemy.swordAngle)
                  * swordLengthOf e))
              * (w.playerX - ((updateEnemy w inp e).enemy.x
                + Real.cos ((updateEnemy w inp e).enemy.swordAngle)
                  * swordLengthOf e))
              + (w.playerY - ((updateEnemy w inp e).enemy.y
                + Real.sin ((updateEnemy w inp e).enemy.swordAngle)
                  * swordLengthOf e))
              * (w.playerY - ((updateEnemy w inp e).enemy.y
                + Real.sin ((updateEnemy w inp e).enemy.swordAngle)
                  * swordLengthOf e))) < 16
          then [Event.damagePlayer e.damage] else []) := by
  have hstun : ¬(0 < (tickCounters e).hitFlash
      ∨ 1.5 < Real.sqrt (e.vx * e.vx + e.vy * e.vy)) := by
    have h1 : (tickCounters e).hitFlash = 0 := by
      simp [tickCounters, hf]
    have h2 : Real.sqrt (e.vx * e.vx + e.vy * e.vy) = 0 := by
      rw [hvx, hvy, show ((0:ℝ) * 0 + 0 * 0) = 0 by norm_num, Real.sqrt_zero]
    rw [h1, h2]
    norm_num
  have hpath := updateEnemy_steer w inp e hdead hstun hdash
  obtain ⟨hafl, hacool, hadsh, -, -, hadead, havx, havy, haswing, hatimer, haangle,
    hadir, hasty, -, -, hadmg, -, haty, -⟩ := afterKb_proj w e
  have htcc : (tickCounters e).attackCooldown = e.attackCooldown - 1 := by
    simp only [tickCounters]
    rw [if_pos (by omega : (0:ℤ) < e.attackCooldown)]
  obtain ⟨a, b, sc, hsm⟩ := steerMove_shape w inp
    (decayVel (knockbackStep w (tickCounters e)))
    (playerDist w (decayVel (knockbackStep w (tickCounters e))))
    (toPlayerX w (decayVel (knockbackStep w (tickCounters e))))
    (toPlayerY w (decayVel (knockbackStep w (tickCounters e))))
  have hemsw : (steerMove w inp (decayVel (knockbackStep w (tickCounters e)))
      (playerDist w (decayVel (knockbackStep w (tickCounters e))))
      (toPlayerX w (decayVel (knockbackStep w (tickCounters e))))
      (toPlayerY w (decayVel (knockbackStep w (tickCounters e))))).swordSwinging
      = true := by
    rw [hsm]
    show (decayVel (knockbackStep w (tickCounters e))).swordSwinging = true
    rw [haswing, hsw]
  have hemcd : (steerMove w inp (decayVel (knockbackStep w (tickCounters e)))
      (playerDist w (decayVel (knockbackStep w (tickCounters e))))
      (toPlayerX w (decayVel (knockbackStep w (tickCounters e))))
      (toPlayerY w (decayVel (knockbackStep w (tickCounters e))))).attackCooldown
      = m + 49 := by
    rw [hsm]
    show (decayVel (knockbackStep w (tickCounters e))).attackCooldown = m + 49
    rw [hacool, htcc, hcd]
    ring
  obtain ⟨pT, pA, pS, px, py, pdd, psty, pcool, pfl, pvx, pvy, pdsh, pdmg, pty, pE⟩ :=
    postSteer_swing w inp
      (steerMove w inp (decayVel (knockbackStep w (tickCounters e)))
        (playerDist w (decayVel (knockbackStep w (tickCounters e))))
        (toPlayerX w (decayVel (knockbackStep w (tickCounters e))))
        (toPlayerY w (decayVel (knockbackStep w (tickCounters e)))))
      (playerDist w (decayVel (knockbackStep w (tickCounters e))))
      (toPlayerX w (decayVel (knockbackStep w (tickCounters e))))
      (toPlayerY w (decayVel (knockbackStep w (tickCounters e))))
      hemsw (by rw [hemcd]; omega)
  have hemT : (steerMove w inp (decayVel (knockbackStep w (tickCounters e)))
      (playerDist w (decayVel (knockbackStep w (tickCounters e))))
      (toPlayerX w (decayVel (knockbackStep w (tickCounters e))))
      (toPlayerY w (decayVel (knockbackStep w (tickCounters e))))).swordSwingTimer
      = m := by
    rw [hsm]
    show (decayVel (knockbackStep w (tickCounters e))).swordSwingTimer = m
    rw [hatimer, ht]
  have hemdmg : (steerMove w inp (decayVel (knockbackStep w (tickCounters e)))
      (playerDist w (decayVel (knockbackStep w (tickCounters e))))
      (toPlayerX w (decayVel (knockbackStep w (tickCounters e))))
      (toPlayerY w (decayVel (knockbackStep w (tickCounters e))))).damage
      = e.damage := by
    rw [hsm]
    show (decayVel (knockbackStep w (tickCounters e))).damage = e.damage
    rw [hadmg]
  have hemty : (steerMove w inp (decayVel (knockbackStep w (tickCounters e)))
      (playerDist w (decayVel (knockbackStep w (tickCounters e))))
      (toPlayerX w (decayVel (knockbackStep w (tickCounters e))))
      (toPlayerY w (decayVel (knockbackStep w (tickCounters e))))).ty
      = e.ty := by
    rw [hsm]
    show (decayVel (knockbackStep w (tickCounters e))).ty = e.ty
    rw [haty]
  rw [hpath]
  refine ⟨?_, ?_, ?_, ?_, ?_, ?_, ?_, ?_, ?_, ?_, ?_, ?_⟩
  · refine pdd.trans ?_
    rw [hsm]
    show (decayVel (knockbackStep w (tickCounters e))).dead = false
    rw [hadead, hdead]
  · refine psty.trans ?_
    rw [hsm]
    show (decayVel (knockbackStep w (tickCounters e))).attackStyle = Style.sword
    rw [hasty, hstyle]
  · exact pT.trans (by rw [hemT])
  · exact pS.trans (by rw [hemT])
  · exact pcool.trans (by rw [hemcd]; ring)
  · refine pfl.trans ?_
    rw [hsm]
    show (decayVel (knockbackStep w (tickCounters e))).hitFlash = 0
    rw [hafl]
    simp [tickCounters, hf]
  · refine pvx.trans ?_
    rw [hsm]
    show (decayVel (knockbackStep w (tickCounters e))).vx = 0
    rw [havx, hvx]
    ring
  · refine pvy.trans ?_
    rw [hsm]
    show (decayVel (knockbackStep w (tickCounters e))).vy = 0
    rw [havy, hvy]
    ring
  · refine pdsh.trans ?_
    rw [hsm]
    show (decayVel (knockbackStep w (tickCounters e))).dashing = false
    rw [hadsh, hdash]
  · exact pdmg.trans hemdmg
  · exact pty.trans hemty
  · have hox : (steerAttack w inp (decayVel (knockbackStep w (tickCounters e)))).enemy.x
        = (steerMove w inp (decayVel (knockbackStep w (tickCounters e)))
            (playerDist w (decayVel (knockbackStep w (tickCounters e))))
            (toPlayerX w (decayVel (knockbackStep w (tickCounters e))))
            (toPlayerY w (decayVel (knockbackStep w (tickCounters e))))).x := px
    have hoy : (steerAttack w inp (decayVel (knockbackStep w (tickCounters e)))).enemy.y
        = (steerMove w inp (decayVel (knockbackStep w (tickCounters e)))
            (playerDist w (decayVel (knockbackStep w (tickCounters e))))
            (toPlayerX w (decayVel (knockbackStep w (tickCounters e))))
            (toPlayerY w (decayVel (knockbackStep w (tickCounters e))))).y := py
    have hoa : (steerAttack w inp (decayVel (knockbackStep w (tickCounters e)))).enemy.swordAngle
        = (steerMove w inp (decayVel (knockbackStep w (tickCounters e)))
            (playerDist w (decayVel (knockbackStep w (tickCounters e))))
            (toPlayerX w (decayVel (knockbackStep w (tickCounters e))))
            (toPlayerY w (decayVel (knockbackStep w (tickCounters e))))).swordAngle
          + (steerMove w inp (decayVel (knockbackStep w (tickCounters e)))
            (playerDist w (decayVel (knockbackStep w (tickCounters e))))
            (toPlayerX w (decayVel (knockbackStep w (tickCounters e))))
            (toPlayerY w (decayVel (knockbackStep w (tickCounters e))))).swordSwingDir
            * (Real.pi / 15) := pA
    have hlen : swordLengthOf (steerMove w inp (decayVel (knockbackStep w (tickCounters e)))
        (playerDist w (decayVel (knockbackStep w (tickCounters e))))
        (toPlayerX w (decayVel (knockbackStep w (tickCounters e))))
        (toPlayerY w (decayVel (knockbackStep w (tickCounters e))))) = swordLengthOf e :=
      swordLengthOf_congr _ _ hemty
    have hev : (steerAttack w inp (decayVel (knockbackStep w (tickCounters e)))).events
        = ((dispatchStep w inp
            (steerMove w inp (decayVel (knockbackStep w (tickCounters e)))
              (playerDist w (decayVel (knockbackStep w (tickCounters e))))
              (toPlayerX w (decayVel (knockbackStep w (tickCounters e))))
              (toPlayerY w (decayVel (knockbackStep w (tickCounters e))))))
            (playerDist w (decayVel (knockbackStep w (tickCounters e))))
            (toPlayerX w (decayVel (knockbackStep w (tickCounters e))))
            (toPlayerY w (decayVel (knockbackStep w (tickCounters e))))).2.2
          ++ (swingStep
              ((dispatchStep w inp
                (steerMove w inp (decayVel (knockbackStep w (tickCounters e)))
                  (playerDist w (decayVel (knockbackStep w (tickCounters e))))
                  (toPlayerX w (decayVel (knockbackStep w (tickCounters e))))
                  (toPlayerY w (decayVel (knockbackStep w (tickCounters e))))))
                (playerDist w (decayVel (knockbackStep w (tickCounters e))))
                (toPlayerX w (decayVel (knockbackStep w (tickCounters e))))
                (toPlayerY w (decayVel (knockbackStep w (tickCounters e))))).2.1
              ((dispatchStep w inp
                (steerMove w inp (decayVel (knockbackStep w (tickCounters e)))
                  (playerDist w (decayVel (knockbackStep w (tickCounters e))))
                  (toPlayerX w (decayVel (knockbackStep w (tickCounters e))))
                  (toPlayerY w (decayVel (knockbackStep w (tickCounters e))))))
                (playerDist w (decayVel (knockbackStep w (tickCounters e))))
                (toPlayerX w (decayVel (knockbackStep w (tickCounters e))))
                (toPlayerY w (decayVel (knockbackStep w (tickCounters e))))).1).2.2 := rfl
    rw [hev, pE, hox, hoy, hoa, hlen, hemT, hemdmg]

/-- Running a concatenated tick list is running the two halves in order. -/
lemma runEnemy_append (e : Enemy) (l1 l2 : List (World × Input)) :
    runEnemy e (l1 ++ l2) = runEnemy (runEnemy e l1) l2 := by
  induction l1 generalizing e with
  | nil => rfl
  | cons p rest ih =>
    obtain ⟨w, inp⟩ := p
    simp only [List.cons_append, runEnemy]
    exact ih _

/-- A single-tick run is one update. -/
lemma runEnemy_single (e : Enemy) (p : World × Input) :
    runEnemy e [p] = (updateEnemy p.1 p.2 e).enemy := rfl

/-- Taking one more element appends the element at the old cut point. -/
lemma take_succ_get {α : Type} (l : List α) (k : ℕ) (hk : k < l.length) :
    List.take (k + 1) l = List.take k l ++ [l.get ⟨k, hk⟩] := by
  rw [List.take_succ]
  simp [List.getElem?_eq_getElem hk, List.get_eq_getElem]

/-- The swing invariant is carried through every prefix of an uninterrupted
run, as long as the swing is still going. -/
lemma swingInv_run (ws : List (World × Input)) (e0 : Enemy) (dmg : ℤ)
    (ty0 : Option EType) (hinv : SwingInv dmg ty0 0 e0) :
    ∀ k, k ≤ ws.length → k < 20 →
      SwingInv dmg ty0 k (runEnemy e0 (List.take k ws)) := by
  intro k
  induction k with
  | zero =>
    intro _ _
    exact hinv
  | succ k ih =>
    intro hlen h20
    have hk : k < ws.length := by omega
    have hprev := ih (by omega) (by omega)
    obtain ⟨hdead, hstyle, hsw, ht, hcd, hf, hvx, hvy, hdash, hdmg, hty⟩ := hprev
    have hstep := swing_tick (ws.get ⟨k, hk⟩).1 (ws.get ⟨k, hk⟩).2
      (runEnemy e0 (List.take k ws)) (20 - (k : ℤ)) hdead hstyle hsw ht
      (by omega) (by rw [hcd]; ring) hf hvx hvy hdash
    obtain ⟨cdead, cstyle, ctimer, cswing, ccool, cfl, cvx, cvy, cdash, cdmg,
      cty, -⟩ := hstep
    rw [take_succ_get ws k hk, runEnemy_append, runEnemy_single]
    refine ⟨cdead, cstyle, ?_, ?_, ?_, cfl, cvx, cvy, cdash,
      by rw [cdmg, hdmg], by rw [cty, hty]⟩
    · rw [cswing, if_neg (by omega : ¬(20 - (k : ℤ) - 1 ≤ 0))]
    · rw [ctimer]
      push_cast
      ring
    · rw [ccool]
      push_cast
      ring

/-- C7: a sword-style agent's swing starts with timer 20, blade angle set
toward the player minus 60 degrees, a swing direction of +1 or -1 drawn from
the input bit, and cooldown 70; along an uninterrupted run the swing flag
stays up for exactly the next 20 ticks and then drops, and the only damage
event the swing can emit is at its tenth tick (index 9), hitting if and only
if the blade tip computed from the post-move position and advanced blade
angle is within 16 units of the player. -/
theorem sword_swing_spec (e : Enemy) (toPx toPy : ℝ) (r : Bool)
    (ws : List (World × Input)) (e0 : Enemy) (dmg : ℤ) (ty0 : Option EType)
    (hinv : SwingInv dmg ty0 0 e0) :
    ((startSwordSwing e toPx toPy r).swordSwinging = true ∧
      (startSwordSwing e toPx toPy r).swordSwingTimer = 20 ∧
      (startSwordSwing e toPx toPy r).swordAngle
        = atan2 toPy toPx - Real.pi / 3 ∧
      ((startSwordSwing e toPx toPy r).swordSwingDir = 1 ∨
        (startSwordSwing e toPx toPy r).swordSwingDir = -1) ∧
      (startSwordSwing e toPx toPy r).attackCooldown = 70) ∧
    (∀ k, ∀ hk : k < ws.length, k < 20 →
      (runEnemy e0 (List.take k ws)).swordSwinging = true ∧
      (runEnemy e0 (List.take k ws)).swordSwingTimer = 20 - (k : ℤ) ∧
      (updateEnemy (ws.get ⟨k, hk⟩).1 (ws.get ⟨k, hk⟩).2
          (runEnemy e0 (List.take k ws))).events
        = (if k = 9 ∧
              Real.sqrt (((ws.get ⟨k, hk⟩).1.playerX
                  - ((updateEnemy (ws.get ⟨k, hk⟩).1 (ws.get ⟨k, hk⟩).2
                      (runEnemy e0 (List.take k ws))).enemy.x
                    + Real.cos ((updateEnemy (ws.get ⟨k, hk⟩).1
                          (ws.get ⟨k, hk⟩).2
                          (runEnemy e0 (List.take k ws))).enemy.swordAngle)
                      * swordLengthOf e0))
                * ((ws.get ⟨k, hk⟩).1.playerX
                  - ((updateEnemy (ws.get ⟨k, hk⟩).1 (ws.get ⟨k, hk⟩).2
                      (runEnemy e0 (List.take k ws))).enemy.x
                    + Real.cos ((updateEnemy (ws.get ⟨k, hk⟩).1
                          (ws.get ⟨k, hk⟩).2
                          (runEnemy e0 (List.take k ws))).enemy.swordAngle)
                      * swordLengthOf e0))
                + ((ws.get ⟨k, hk⟩).1.playerY
                  - ((updateEnemy (ws.get ⟨k, hk⟩).1 (ws.get ⟨k, hk⟩).2
                      (runEnemy e0 (List.take k ws))).enemy.y
                    + Real.sin ((updateEnemy (ws.get ⟨k, hk⟩).1
                          (ws.get ⟨k, hk⟩).2
                          (runEnemy e0 (List.take k ws))).enemy.swordAngle)
                      * swordLengthOf e0))
                * ((ws.get ⟨k, hk⟩).1.playerY
                  - ((updateEnemy (ws.get ⟨k, hk⟩).1 (ws.get ⟨k, hk⟩).2
                      (runEnemy e0 (List.take k ws))).enemy.y
                    + Real.sin ((updateEnemy (ws.get ⟨k, hk⟩).1
                          (ws.get ⟨k, hk⟩).2
                          (runEnemy e0 (List.take k ws))).enemy.swordAngle)
                      * swordLengthOf e0))) < 16
            then [Event.damagePlayer dmg] else [])) ∧
    (20 ≤ ws.length →
      (runEnemy e0 (List.take 20 ws)).swordSwinging = false) := by
  have hty0 : e0.ty = ty0 := hinv.2.2.2.2.2.2.2.2.2.2
  refine ⟨⟨rfl, rfl, rfl, ?_, rfl⟩, ?_, ?_⟩
  · cases r
    · right
      rfl
    · left
      rfl
  · intro k hk hk20
    have hprev := swingInv_run ws e0 dmg ty0 hinv k (le_of_lt hk) hk20
    obtain ⟨hdead, hstyle, hsw, ht, hcd, hf, hvx, hvy, hdash, hdmg, hty⟩ := hprev
    have hstep := swing_tick (ws.get ⟨k, hk⟩).1 (ws.get ⟨k, hk⟩).2
      (runEnemy e0 (List.take k ws)) (20 - (k : ℤ)) hdead hstyle hsw ht
      (by omega) (by rw [hcd]; ring) hf hvx hvy hdash
    obtain ⟨-, -, -, -, -, -, -, -, -, -, -, hE⟩ := hstep
    refine ⟨hsw, ht, ?_⟩
    rw [hE, hdmg, swordLengthOf_congr _ e0 (by rw [hty, hty0])]
    refine if_congr (and_congr_left' (by omega)) rfl rfl
  · intro h20
    have hk19 : 19 < ws.length := by omega
    have hprev := swingInv_run ws e0 dmg ty0 hinv 19 (by omega) (by omega)
    obtain ⟨hdead, hstyle, hsw, ht, hcd, hf, hvx, hvy, hdash, hdmg, hty⟩ := hprev
    have hstep := swing_tick (ws.get ⟨19, hk19⟩).1 (ws.get ⟨19, hk19⟩).2
      (runEnemy e0 (List.take 19 ws)) (20 - ((19 : ℕ) : ℤ)) hdead hstyle hsw ht
      (by norm_num) (by rw [hcd]; norm_num) hf hvx hvy hdash
    obtain ⟨-, -, -, cswing, -⟩ := hstep
    have htake : List.take 20 ws = List.take 19 ws ++ [ws.get ⟨19, hk19⟩] :=
      take_succ_get ws 19 hk19
    rw [htake, runEnemy_append, runEnemy_single, cswing,
      if_pos (by norm_num : (20: ℤ) - ((19 : ℕ) : ℤ) - 1 ≤ 0)]

/-- Witness for sword_swing_spec: the freshly started sword agent satisfies
the swing invariant, and the start characterization evaluates at a concrete
position and random draw. -/
theorem sword_swing_spec_witness :
    SwingInv 1 none 0 eC7 ∧
    (startSwordSwing baseEnemy 1 0 true).swordSwingTimer = 20 ∧
    (startSwordSwing baseEnemy 1 0 true).attackCooldown = 70 := by
  have h : SwingInv 1 none 0 eC7 :=
    ⟨rfl, rfl, rfl, by norm_num [eC7], by norm_num [eC7], rfl, rfl, rfl, rfl,
      rfl, rfl⟩
  exact ⟨h, (sword_swing_spec baseEnemy 1 0 true [] eC7 1 none h).1.2.1,
    (sword_swing_spec baseEnemy 1 0 true [] eC7 1 none h).1.2.2.2.2⟩
